import Mathlib

/-!
Formal model of the funeral-vision analytics pipeline.

The definitions below are a shallow embedding of the TypeScript source:
the swap parser (`parseEnhancedTransaction` and its three strategies),
the FIFO cost-basis engine (`calculateFIFOPnL`), the period summarizer
(`generatePnLSummary`), the follow simulator (`simulateFollowReturns`,
`getFollowScore`), and the signature-paging loop of the sync coordinator
(`getAllSignaturesForAddress`).  Real-number arithmetic of the source is
modelled with `ℚ`; unix timestamps with `ℤ`; JavaScript `Map`s with
insertion-ordered association lists.  Database writes are modelled by
returning the rows that the source would persist.
-/

namespace FuneralVision

/-- Canonical trade side, `'buy' | 'sell'` in the source. -/
inductive TradeType where
  | buy
  | sell
deriving DecidableEq, Repr

/-- String form used when building deterministic trade ids. -/
def TradeType.str : TradeType → String
  | .buy => "buy"
  | .sell => "sell"

/-- Canonical trade record (shared/src/index.ts `Trade`). -/
structure Trade where
  id : String
  walletAddress : String
  signature : String
  timestamp : Int
  type : TradeType
  tokenMint : String
  tokenSymbol : Option String
  tokenAmount : ℚ
  solAmount : ℚ
  pricePerToken : ℚ
  dex : String
deriving DecidableEq, Repr

/-- `rawTokenAmount` payload: raw integer amount scaled by `10^decimals`. -/
structure RawTokenAmount where
  tokenAmount : Int
  decimals : Nat
deriving DecidableEq, Repr

/-- `nativeTransfers` entry of an enhanced transaction (amount in lamports). -/
structure NativeTransfer where
  fromUserAccount : String
  toUserAccount : String
  amount : Int
deriving DecidableEq, Repr

/-- `tokenTransfers` entry of an enhanced transaction. -/
structure TokenTransfer where
  fromUserAccount : String
  toUserAccount : String
  tokenAmount : ℚ
  mint : String
deriving DecidableEq, Repr

/-- A token balance change nested inside `accountData`. -/
structure TokenBalanceChange where
  mint : String
  rawTokenAmount : RawTokenAmount
  userAccount : String
deriving DecidableEq, Repr

/-- `accountData` entry of an enhanced transaction. -/
structure AccountData where
  account : String
  nativeBalanceChange : Int
  tokenBalanceChanges : List TokenBalanceChange
deriving DecidableEq, Repr

/-- A declared swap event token leg. -/
structure SwapTokenLeg where
  mint : String
  rawTokenAmount : RawTokenAmount
deriving DecidableEq, Repr

/-- A declared swap event native leg (amount in lamports). -/
structure SwapNativeLeg where
  amount : Int
deriving DecidableEq, Repr

/-- `events.swap` of an enhanced transaction. -/
structure SwapEvent where
  nativeInput : Option SwapNativeLeg
  nativeOutput : Option SwapNativeLeg
  tokenInputs : List SwapTokenLeg
  tokenOutputs : List SwapTokenLeg
deriving DecidableEq, Repr

/-- A Helius enhanced transaction record (the parser's input). -/
structure HeliusEnhancedTransaction where
  signature : String
  timestamp : Int
  txType : String
  source : String
  transactionError : Option String
  nativeTransfers : List NativeTransfer
  tokenTransfers : List TokenTransfer
  accountData : List AccountData
  swapEvent : Option SwapEvent
deriving DecidableEq, Repr

/-- Lamports per SOL constant. -/
def LAMPORTS_PER_SOL : ℚ := 1000000000

/-- Native SOL mint identifier. -/
def NATIVE_SOL_MINT : String := "So11111111111111111111111111111111111111112"

/-- Wrapped SOL mint identifier (same string as the native mint). -/
def WSOL_MINT : String := "So11111111111111111111111111111111111111112"

/-- The system-program id also treated as SOL by `isSOLOrWSol`. -/
def SYSTEM_PROGRAM_MINT : String := "11111111111111111111111111111111"

/-- USDC mint. -/
def USDC_MINT : String := "EPjFWdd5AufqSSqeM2qN1xzybapC8G4wEGGkZwyTDt1v"

/-- USDT mint. -/
def USDT_MINT : String := "Es9vMFrzaCERmJfrF4H2FYD4KCoNkY11McCe8BenwNYB"

/-- USDS mint. -/
def USDS_MINT : String := "USDSwr9ApdHk5bvJKMjzff41FfuX8bSxdKcR81vTwcA"

/-- USD1 mint. -/
def USD1_MINT : String := "USD1ttGY1N17NEEHLmELoaybftRBUSErhqYiQzvEmuB"

/-- stSOL mint. -/
def STSOL_MINT : String := "7dHbWXmci3dT8UFYWYZweBLXgycu7Y3iL6trKn1Y7ARj"

/-- mSOL mint. -/
def MSOL_MINT : String := "mSoLzYCxHdYgdzU16g5QSh3i5K3z3KZK7ytfqcJm7So"

/-- bSOL mint. -/
def BSOL_MINT : String := "bSo13r4TkiE4KumL71LsHTPpL2euBYLFx6h9HP3piy1"

/-- jitoSOL mint. -/
def JITOSOL_MINT : String := "J1toso1uCk3RLmjorhTtrVwY9HJ7X8V9yYac6Y7kGCPn"

/-- The intermediate-token set (stablecoins, LSTs, native/wrapped SOL). -/
def INTERMEDIATE_TOKENS : List String :=
  [USDC_MINT, USDT_MINT, USDS_MINT, USD1_MINT,
   STSOL_MINT, MSOL_MINT, BSOL_MINT, JITOSOL_MINT, NATIVE_SOL_MINT]

/-- `isSOLOrWSol` from the parser source. -/
def isSOLOrWSol (mint : String) : Bool :=
  decide (mint = NATIVE_SOL_MINT) || decide (mint = WSOL_MINT) ||
    decide (mint = SYSTEM_PROGRAM_MINT)

/-- `parseTokenAmount`: raw string integer scaled by `10^decimals`. -/
def parseTokenAmount (raw : RawTokenAmount) : ℚ :=
  (raw.tokenAmount : ℚ) / ((10 : ℚ) ^ raw.decimals)

/-- Substring test used by the DEX detector (case already normalized). -/
def strHasSubstr (s pat : String) : Bool :=
  decide (2 ≤ (s.splitOn pat).length)

/-- The empty string (used for JS truthiness tests on string fields). -/
def emptyString : String := ""

/-- `detectDex`: vendor label from the source string, else type, else Unknown. -/
def detectDex (tx : HeliusEnhancedTransaction) : String :=
  if tx.source ≠ emptyString then
    let u := tx.source.toUpper
    if strHasSubstr u ("JUPITER") then ("Jupiter")
    else if strHasSubstr u ("RAYDIUM") then ("Raydium")
    else if strHasSubstr u ("PUMP") || strHasSubstr u ("PUMPFUN") then ("Pump.fun")
    else if strHasSubstr u ("ORCA") then ("Orca")
    else if strHasSubstr u ("METEORA") then ("Meteora")
    else if strHasSubstr u ("MOONSHOT") then ("Moonshot")
    else if strHasSubstr u ("PHOENIX") then ("Phoenix")
    else if strHasSubstr u ("LIFINITY") then ("Lifinity")
    else tx.source
  else if tx.txType ≠ emptyString then
    (if strHasSubstr tx.txType.toUpper ("SWAP") then ("DEX Swap") else ("Unknown"))
  else ("Unknown")

/-- `createTrade`: builds a trade with deterministic id `sig-type-mint`. -/
def createTrade (tx : HeliusEnhancedTransaction) (walletAddress : String)
    (ty : TradeType) (tokenMint : String) (tokenAmount solAmount : ℚ) : Trade :=
  { id := tx.signature ++ ("-") ++ ty.str ++ ("-") ++ tokenMint
    walletAddress := walletAddress
    signature := tx.signature
    timestamp := tx.timestamp
    type := ty
    tokenMint := tokenMint
    tokenSymbol := none
    tokenAmount := tokenAmount
    solAmount := solAmount
    pricePerToken := solAmount / tokenAmount
    dex := detectDex tx }

/-- Insertion-ordered association list standing in for a JS `Map`. -/
abbrev QMap := List (String × ℚ)

/-- `Map.get` (`undefined` modelled as `none`). -/
def qget (m : QMap) (k : String) : Option ℚ :=
  (m.find? (fun p => decide (p.1 = k))).map Prod.snd

/-- `Map.get(k) || 0`. -/
def qgetD (m : QMap) (k : String) : ℚ := (qget m k).getD 0

/-- `Map.set`: update in place if the key exists, else append (JS order). -/
def qset (m : QMap) (k : String) (v : ℚ) : QMap :=
  match m with
  | [] => [(k, v)]
  | p :: rest => if p.1 = k then (k, v) :: rest else p :: qset rest k v

/-- `Map.delete`: drop the entry for a key. -/
def qdel (m : QMap) (k : String) : QMap :=
  m.filter (fun p => !decide (p.1 = k))

/-- Dust threshold `0.000001` of the parser. -/
def DUST_EPS : ℚ := 1 / 1000000

/-- SOL-delta significance threshold `0.0001` of the parser. -/
def SOL_EPS : ℚ := 1 / 10000

/-- Strategy C — declared swap event: native in + token outs are buys. -/
def swapEventBuys (tx : HeliusEnhancedTransaction) (walletAddress : String)
    (swap : SwapEvent) : List Trade :=
  match swap.nativeInput with
  | none => []
  | some nin =>
    if swap.tokenOutputs ≠ [] then
      let solAmount := (nin.amount : ℚ) / LAMPORTS_PER_SOL
      swap.tokenOutputs.filterMap (fun leg =>
        if isSOLOrWSol leg.mint then none
        else
          let tokenAmount := parseTokenAmount leg.rawTokenAmount
          if 0 < tokenAmount ∧ 0 < solAmount then
            some (createTrade tx walletAddress .buy leg.mint tokenAmount solAmount)
          else none)
    else []

/-- Strategy C — declared swap event: token ins + native out are sells. -/
def swapEventSells (tx : HeliusEnhancedTransaction) (walletAddress : String)
    (swap : SwapEvent) : List Trade :=
  match swap.nativeOutput with
  | none => []
  | some nout =>
    if swap.tokenInputs ≠ [] then
      let solAmount := (nout.amount : ℚ) / LAMPORTS_PER_SOL
      swap.tokenInputs.filterMap (fun leg =>
        if isSOLOrWSol leg.mint then none
        else
          let tokenAmount := parseTokenAmount leg.rawTokenAmount
          if 0 < tokenAmount ∧ 0 < solAmount then
            some (createTrade tx walletAddress .sell leg.mint tokenAmount solAmount)
          else none)
    else []

/-- `parseFromSwapEvent` (strategy C of the parser). -/
def parseFromSwapEvent (tx : HeliusEnhancedTransaction)
    (walletAddress : String) : List Trade :=
  match tx.swapEvent with
  | none => []
  | some swap =>
    swapEventBuys tx walletAddress swap ++ swapEventSells tx walletAddress swap

/-- Wallet SOL delta summed over `accountData` rows whose account matches. -/
def balanceSolChange (tx : HeliusEnhancedTransaction) (walletAddress : String) : ℚ :=
  tx.accountData.foldl
    (fun acc row =>
      if row.account = walletAddress then
        acc + (row.nativeBalanceChange : ℚ) / LAMPORTS_PER_SOL
      else acc) 0

/-- One `tokenBalanceChanges` entry folded into the per-mint delta map. -/
def balanceTbcStep (walletAddress : String) (m : QMap)
    (tbc : TokenBalanceChange) : QMap :=
  if tbc.userAccount = walletAddress then
    if isSOLOrWSol tbc.mint then m
    else
      let amount := parseTokenAmount tbc.rawTokenAmount
      qset m tbc.mint (qgetD m tbc.mint + amount)
  else m

/-- One `accountData` row folded into the per-mint delta map. -/
def balanceRowStep (walletAddress : String) (m : QMap)
    (row : AccountData) : QMap :=
  row.tokenBalanceChanges.foldl (balanceTbcStep walletAddress) m

/-- Per-mint token deltas from `tokenBalanceChanges`, keyed by `userAccount`. -/
def balanceTokenChanges (tx : HeliusEnhancedTransaction)
    (walletAddress : String) : QMap :=
  tx.accountData.foldl (balanceRowStep walletAddress) []

/-- `parseFromBalanceChanges` (strategy B of the parser). -/
def parseFromBalanceChanges (tx : HeliusEnhancedTransaction)
    (walletAddress : String) : List Trade :=
  let solChange := balanceSolChange tx walletAddress
  let tokenChanges := balanceTokenChanges tx walletAddress
  if tokenChanges = [] then []
  else
    tokenChanges.filterMap (fun p =>
      let tokenDelta := p.2
      if |tokenDelta| < DUST_EPS then none
      else if 0 < tokenDelta then
        some (createTrade tx walletAddress .buy p.1 tokenDelta |solChange|)
      else if tokenDelta < 0 then
        some (createTrade tx walletAddress .sell p.1 |tokenDelta| (max 0 solChange))
      else none)

/-- Net native-SOL delta for the wallet over `nativeTransfers`. -/
def transferSolDelta (tx : HeliusEnhancedTransaction) (walletAddress : String) : ℚ :=
  tx.nativeTransfers.foldl
    (fun acc tr =>
      let acc2 := if tr.fromUserAccount = walletAddress then
        acc - (tr.amount : ℚ) / LAMPORTS_PER_SOL else acc
      if tr.toUserAccount = walletAddress then
        acc2 + (tr.amount : ℚ) / LAMPORTS_PER_SOL else acc2) 0

/-- Per-mint signed token deltas over `tokenTransfers` (the source reads the
current delta once per transfer, so a self-transfer ends at `cur + amount`). -/
def transferTokenDeltas (tx : HeliusEnhancedTransaction)
    (walletAddress : String) : QMap :=
  tx.tokenTransfers.foldl
    (fun m tr =>
      let currentDelta := qgetD m tr.mint
      let m2 := if tr.fromUserAccount = walletAddress then
        qset m tr.mint (currentDelta - tr.tokenAmount) else m
      if tr.toUserAccount = walletAddress then
        qset m2 tr.mint (currentDelta + tr.tokenAmount) else m2) []

/-- Split non-dust deltas into intermediate and target mints, keeping order. -/
def splitIntermediate : QMap → QMap × QMap
  | [] => ([], [])
  | p :: rest =>
    let r := splitIntermediate rest
    if |p.2| < DUST_EPS then r
    else if INTERMEDIATE_TOKENS.contains p.1 then (p :: r.1, r.2)
    else (r.1, p :: r.2)

/-- Sum of absolute deltas of a token map. -/
def absSum (m : QMap) : ℚ := (m.map (fun p => |p.2|)).sum

/-- Sum of signed deltas of a token map. -/
def signedSum (m : QMap) : ℚ := (m.map Prod.snd).sum

/-- Case A1: allocate `|solDelta|` across targets in proportion to `|delta|`. -/
def transfersTradesWithSol (tx : HeliusEnhancedTransaction) (walletAddress : String)
    (solDelta : ℚ) (targetDeltas : QMap) : List Trade :=
  let totalTargetValue := absSum targetDeltas
  targetDeltas.filterMap (fun p =>
    let tokenDelta := p.2
    let proportion := |tokenDelta| / totalTargetValue
    let proportionalSol := |solDelta| * proportion
    if solDelta < 0 ∧ 0 < tokenDelta then
      some (createTrade tx walletAddress .buy p.1 tokenDelta proportionalSol)
    else if 0 < solDelta ∧ tokenDelta < 0 then
      some (createTrade tx walletAddress .sell p.1 |tokenDelta| proportionalSol)
    else none)

/-- Case A2: use intermediate-token flow as the SOL proxy. -/
def transfersTradesViaIntermediate (tx : HeliusEnhancedTransaction)
    (walletAddress : String) (solDelta : ℚ)
    (intermediateDeltas targetDeltas : QMap) : List Trade :=
  let intermediateValue := absSum intermediateDeltas
  let intermediateDirection := signedSum intermediateDeltas
  targetDeltas.filterMap (fun p =>
    let tokenDelta := p.2
    let proportion := |tokenDelta| / absSum targetDeltas
    let proportionalValue := intermediateValue * proportion
    if intermediateDirection < 0 ∧ 0 < tokenDelta then
      let solValue := if SOL_EPS < |solDelta| then |solDelta| else proportionalValue / 100
      some (createTrade tx walletAddress .buy p.1 tokenDelta solValue)
    else if 0 < intermediateDirection ∧ tokenDelta < 0 then
      let solValue := if SOL_EPS < solDelta then solDelta else proportionalValue / 100
      some (createTrade tx walletAddress .sell p.1 |tokenDelta| solValue)
    else none)

/-- Case A3: zero-cost buys for received tokens (airdrop / free mint). -/
def transfersTradesAirdrop (tx : HeliusEnhancedTransaction)
    (walletAddress : String) (targetDeltas : QMap) : List Trade :=
  targetDeltas.filterMap (fun p =>
    if 0 < p.2 then
      some (createTrade tx walletAddress .buy p.1 p.2 0)
    else none)

/-- `parseFromTransfers` (strategy A of the parser, primary). -/
def parseFromTransfers (tx : HeliusEnhancedTransaction)
    (walletAddress : String) : List Trade :=
  let solDelta0 := transferSolDelta tx walletAddress
  let tokenDeltas0 := transferTokenDeltas tx walletAddress
  let wsolDelta := qgetD tokenDeltas0 WSOL_MINT
  let solDelta := solDelta0 + wsolDelta
  let tokenDeltas := qdel (qdel tokenDeltas0 WSOL_MINT) NATIVE_SOL_MINT
  let split := splitIntermediate tokenDeltas
  let intermediateDeltas := split.1
  let targetDeltas := split.2
  if targetDeltas ≠ [] ∧ SOL_EPS < |solDelta| then
    transfersTradesWithSol tx walletAddress solDelta targetDeltas
  else if targetDeltas ≠ [] ∧ intermediateDeltas ≠ [] then
    transfersTradesViaIntermediate tx walletAddress solDelta
      intermediateDeltas targetDeltas
  else if targetDeltas ≠ [] then
    transfersTradesAirdrop tx walletAddress targetDeltas
  else []

/-- `parseEnhancedTransaction`: failed txs are skipped, then the three
strategies are tried in order and the first non-empty result wins. -/
def parseEnhancedTransaction (tx : HeliusEnhancedTransaction)
    (walletAddress : String) : List Trade :=
  if tx.transactionError ≠ none then []
  else
    let transferTrades := parseFromTransfers tx walletAddress
    if transferTrades ≠ [] then transferTrades
    else
      let balanceChangeTrades := parseFromBalanceChanges tx walletAddress
      if balanceChangeTrades ≠ [] then balanceChangeTrades
      else
        match tx.swapEvent with
        | some _ => parseFromSwapEvent tx walletAddress
        | none => []

/-! ## FIFO cost-basis engine (`calculateFIFOPnL` in pnl service) -/

/-- An in-memory FIFO buy lot (`buyLots` entry in the source). -/
structure Lot where
  tradeId : String
  amount : ℚ
  remaining : ℚ
  price : ℚ
  timestamp : Int
deriving DecidableEq, Repr

/-- The per-(wallet, token) aggregate row (`Position` in shared types). -/
structure Position where
  walletAddress : String
  tokenMint : String
  tokenSymbol : Option String
  totalBought : ℚ
  totalSold : ℚ
  totalCostBasis : ℚ
  totalProceeds : ℚ
  remainingTokens : ℚ
  averageBuyPrice : ℚ
  realizedPnL : ℚ
  tradeCount : Nat
  winCount : Nat
  firstTradeAt : Int
  lastTradeAt : Int
deriving DecidableEq, Repr

/-- Group trades by mint, JS-`Map` style: keys in order of first occurrence,
each group keeping the original relative order of its trades. -/
def groupByMint (ts : List Trade) : List (String × List Trade) :=
  match ts with
  | [] => []
  | t :: rest =>
    (t.tokenMint, t :: rest.filter (fun u => decide (u.tokenMint = t.tokenMint))) ::
      groupByMint (rest.filter (fun u => !decide (u.tokenMint = t.tokenMint)))
termination_by ts.length
decreasing_by
  simp only [List.length_cons]
  exact Nat.lt_succ_of_le (List.length_filter_le _ _)

/-- Stable insertion of a trade into a timestamp-sorted list. -/
def insertByTs (t : Trade) : List Trade → List Trade
  | [] => [t]
  | u :: us =>
    if t.timestamp ≤ u.timestamp then t :: u :: us else u :: insertByTs t us

/-- Stable sort by ascending timestamp, the JS
`sort((a, b) => a.timestamp - b.timestamp)` of the source. -/
def sortByTs : List Trade → List Trade
  | [] => []
  | t :: ts => insertByTs t (sortByTs ts)

/-- Walk the lot queue from the front matching a sell of `sellRemaining`
tokens; returns the updated queue, the matched cost, and the unmatched
remainder (the `for lot of buyLots` loop of the source). -/
def matchLots : List Lot → ℚ → List Lot × ℚ × ℚ
  | [], sellRemaining => ([], 0, sellRemaining)
  | lot :: rest, sellRemaining =>
    if sellRemaining ≤ 0 then (lot :: rest, 0, sellRemaining)
    else if lot.remaining ≤ 0 then
      let r := matchLots rest sellRemaining
      (lot :: r.1, r.2.1, r.2.2)
    else
      let matchAmount := min lot.remaining sellRemaining
      let r := matchLots rest (sellRemaining - matchAmount)
      ({ lot with remaining := lot.remaining - matchAmount } :: r.1,
       r.2.1 + matchAmount * lot.price, r.2.2)

/-- Running state of the per-mint FIFO fold. -/
structure FifoAcc where
  lots : List Lot
  totalBought : ℚ
  totalSold : ℚ
  totalCostBasis : ℚ
  totalProceeds : ℚ
  realizedPnL : ℚ
  winCount : Nat
deriving Repr

/-- Initial FIFO state. -/
def fifoInit : FifoAcc :=
  { lots := [], totalBought := 0, totalSold := 0, totalCostBasis := 0,
    totalProceeds := 0, realizedPnL := 0, winCount := 0 }

/-- One step of the FIFO fold: buys append a lot, sells match FIFO. -/
def fifoStep (acc : FifoAcc) (t : Trade) : FifoAcc :=
  match t.type with
  | .buy =>
    { acc with
      lots := acc.lots ++
        [{ tradeId := t.id, amount := t.tokenAmount, remaining := t.tokenAmount,
           price := t.pricePerToken, timestamp := t.timestamp }]
      totalBought := acc.totalBought + t.tokenAmount
      totalCostBasis := acc.totalCostBasis + t.solAmount }
  | .sell =>
    let r := matchLots acc.lots t.tokenAmount
    let sellCostBasis := r.2.1
    let sellProfit := t.solAmount - sellCostBasis
    { acc with
      lots := r.1
      realizedPnL := acc.realizedPnL + sellProfit
      totalSold := acc.totalSold + t.tokenAmount
      totalProceeds := acc.totalProceeds + t.solAmount
      winCount := acc.winCount + (if 0 < sellProfit then 1 else 0) }

/-- First timestamp of a sorted trade list (`sortedTrades[0]?.timestamp || 0`). -/
def firstTs (ts : List Trade) : Int :=
  match ts.head? with
  | some t => t.timestamp
  | none => 0

/-- Last timestamp of a sorted trade list. -/
def lastTs (ts : List Trade) : Int :=
  match ts.getLast? with
  | some t => t.timestamp
  | none => 0

/-- Result of processing one mint group: the position row and the cost-basis
lot rows the source persists for that (wallet, mint). -/
structure MintResult where
  mint : String
  position : Position
  lots : List Lot
deriving Repr

/-- Process one mint group: sort, fold FIFO, persist lots with
`remaining > 0`, and build the position row. -/
def processMint (walletAddress mint : String) (tokenTrades : List Trade) :
    MintResult :=
  let sortedTrades := sortByTs tokenTrades
  let acc := sortedTrades.foldl fifoStep fifoInit
  let persisted := acc.lots.filter (fun lot => decide (0 < lot.remaining))
  let tokenSymbol := (sortedTrades.head?.map Trade.tokenSymbol).getD none
  let remainingTokens := acc.totalBought - acc.totalSold
  let averageBuyPrice :=
    if 0 < acc.totalBought then acc.totalCostBasis / acc.totalBought else 0
  { mint := mint
    position :=
      { walletAddress := walletAddress
        tokenMint := mint
        tokenSymbol := tokenSymbol
        totalBought := acc.totalBought
        totalSold := acc.totalSold
        totalCostBasis := acc.totalCostBasis
        totalProceeds := acc.totalProceeds
        remainingTokens := remainingTokens
        averageBuyPrice := averageBuyPrice
        realizedPnL := acc.realizedPnL
        tradeCount := sortedTrades.length
        winCount := acc.winCount
        firstTradeAt := firstTs sortedTrades
        lastTradeAt := lastTs sortedTrades }
    lots := persisted }

/-- Output of `calculateFIFOPnL`: the per-mint rows written to the store and
the returned positions and total realized PnL. -/
structure FifoOutput where
  mintResults : List MintResult
  positions : List Position
  totalRealizedPnL : ℚ
deriving Repr

/-- `calculateFIFOPnL`: delete old rows (implicit in returning fresh ones),
group trades by mint, process each group in FIFO order. -/
def calculateFIFOPnL (walletAddress : String) (trades : List Trade) :
    FifoOutput :=
  let mintResults :=
    (groupByMint trades).map (fun g => processMint walletAddress g.1 g.2)
  { mintResults := mintResults
    positions := mintResults.map MintResult.position
    totalRealizedPnL :=
      (mintResults.map (fun mr => mr.position.realizedPnL)).sum }

/-- Sum of `remaining_amount` over a list of lots. -/
def sumRem (lots : List Lot) : ℚ := (lots.map Lot.remaining).sum

/-! ## Period summarizer (`generatePnLSummary` in pnl service) -/

/-- Reporting timeframe. -/
inductive Timeframe where
  | h24
  | d7
  | d30
  | d90
  | all
deriving DecidableEq, Repr

/-- `TIMEFRAME_SECONDS`: duration of each timeframe, `none` for `all`. -/
def TIMEFRAME_SECONDS : Timeframe → Option Int
  | .h24 => some (24 * 60 * 60)
  | .d7 => some (7 * 24 * 60 * 60)
  | .d30 => some (30 * 24 * 60 * 60)
  | .d90 => some (90 * 24 * 60 * 60)
  | .all => none

/-- Start of the reporting window (`now − duration`, or 0 for `all`). -/
def periodStartOf (timeframe : Timeframe) (now : Int) : Int :=
  match TIMEFRAME_SECONDS timeframe with
  | some s => now - s
  | none => 0

/-- Trades whose timestamp falls inside the reporting window. -/
def tradesInPeriodOf (allTrades : List Trade) (timeframe : Timeframe)
    (now : Int) : List Trade :=
  match TIMEFRAME_SECONDS timeframe with
  | some _ =>
    allTrades.filter (fun t => decide (periodStartOf timeframe now ≤ t.timestamp))
  | none => allTrades

/-- Average buy price of the lifetime position stored for a mint (0 when no
position row exists). -/
def lookupAvgPrice (positions : List Position) (mint : String) : ℚ :=
  match positions.find? (fun p => decide (p.tokenMint = mint)) with
  | some p => p.averageBuyPrice
  | none => 0

/-- Per-mint period loop body: realized PnL and win count over the period's
sells, each priced at the lifetime average buy price. -/
def periodSellStats (averageBuyPrice : ℚ) (periodSells : List Trade) :
    ℚ × Nat :=
  periodSells.foldl
    (fun acc sell =>
      let costBasisForSell := sell.tokenAmount * averageBuyPrice
      let profit := sell.solAmount - costBasisForSell
      (acc.1 + profit, acc.2 + (if 0 < profit then 1 else 0))) (0, 0)

/-- Smallest timestamp of a trade list (groups are never empty). -/
def minTs (ts : List Trade) : Int :=
  match ts with
  | [] => 0
  | t :: rest => rest.foldl (fun a u => min a u.timestamp) t.timestamp

/-- Largest timestamp of a trade list. -/
def maxTs (ts : List Trade) : Int :=
  match ts with
  | [] => 0
  | t :: rest => rest.foldl (fun a u => max a u.timestamp) t.timestamp

/-- Period PnL, win count, loss contribution and period position row for one
mint group of the reporting window. -/
def periodGroupResult (walletAddress : String) (allPositions : List Position)
    (g : String × List Trade) : ℚ × Nat × Nat × Position :=
  let periodTrades := g.2
  let periodBuys := periodTrades.filter (fun t => decide (t.type = .buy))
  let periodSells := periodTrades.filter (fun t => decide (t.type = .sell))
  let periodBought := (periodBuys.map Trade.tokenAmount).sum
  let periodSold := (periodSells.map Trade.tokenAmount).sum
  let periodCostBasis := (periodBuys.map Trade.solAmount).sum
  let periodProceeds := (periodSells.map Trade.solAmount).sum
  let fullPosition := allPositions.find? (fun p => decide (p.tokenMint = g.1))
  let stats : ℚ × Nat :=
    match fullPosition with
    | some fp => periodSellStats fp.averageBuyPrice periodSells
    | none => (0, 0)
  let periodRealizedPnL := stats.1
  let periodWinCount := stats.2
  let winContribution := if 0 < periodRealizedPnL then periodWinCount else 0
  let lossContribution :=
    if periodRealizedPnL < 0 then periodSells.length - periodWinCount else 0
  (periodRealizedPnL, winContribution, lossContribution,
   { walletAddress := walletAddress
     tokenMint := g.1
     tokenSymbol := ((fullPosition.map Position.tokenSymbol).getD none)
     totalBought := periodBought
     totalSold := periodSold
     totalCostBasis := periodCostBasis
     totalProceeds := periodProceeds
     remainingTokens := (fullPosition.map Position.remainingTokens).getD 0
     averageBuyPrice := (fullPosition.map Position.averageBuyPrice).getD 0
     realizedPnL := periodRealizedPnL
     tradeCount := periodTrades.length
     winCount := periodWinCount
     firstTradeAt := minTs periodTrades
     lastTradeAt := maxTs periodTrades })

/-- Best/worst-trade fold step: track the strictly best and strictly worst
period sell, priced at the lifetime average (only positions with a positive
average buy price participate, as in the source). -/
def bestWorstStep (allPositions : List Position)
    (acc : Option (Trade × ℚ) × Option (Trade × ℚ)) (sell : Trade) :
    Option (Trade × ℚ) × Option (Trade × ℚ) :=
  match allPositions.find? (fun p => decide (p.tokenMint = sell.tokenMint)) with
  | some pos =>
    if 0 < pos.averageBuyPrice then
      let tradePnL := sell.solAmount - sell.tokenAmount * pos.averageBuyPrice
      let best :=
        match acc.1 with
        | none => some (sell, tradePnL)
        | some bp => if bp.2 < tradePnL then some (sell, tradePnL) else some bp
      let worst :=
        match acc.2 with
        | none => some (sell, tradePnL)
        | some wp => if tradePnL < wp.2 then some (sell, tradePnL) else some wp
      (best, worst)
    else acc
  | none => acc

/-- The period summary record returned by `generatePnLSummary`. -/
structure PnLSummary where
  walletAddress : String
  timeframe : Timeframe
  periodStart : Int
  periodEnd : Int
  totalRealizedPnL : ℚ
  totalTrades : Nat
  totalBuys : Nat
  totalSells : Nat
  winCount : Nat
  lossCount : Nat
  winRate : ℚ
  totalSolVolume : ℚ
  avgTradeSize : ℚ
  avgHoldDuration : ℚ
  uniqueTokensTraded : Nat
  bestTrade : Option Trade
  worstTrade : Option Trade
  positions : List Position
deriving Repr

/-- `generatePnLSummary`: FIFO over all trades first, then report the
window's sells against the lifetime average cost basis.  The wall clock
`Date.now()` of the source is passed explicitly as `now`. -/
def generatePnLSummary (walletAddress : String) (allTrades : List Trade)
    (timeframe : Timeframe) (now : Int) : PnLSummary :=
  let periodStart := periodStartOf timeframe now
  let allPositions := (calculateFIFOPnL walletAddress allTrades).positions
  let tradesInPeriod := tradesInPeriodOf allTrades timeframe now
  let groups := groupByMint tradesInPeriod
  let groupResults := groups.map (periodGroupResult walletAddress allPositions)
  let totalRealizedPnL := (groupResults.map (fun r => r.1)).sum
  let winCount : Nat := (groupResults.map (fun r => r.2.1)).sum
  let lossCount : Nat := (groupResults.map (fun r => r.2.2.1)).sum
  let periodPositions := groupResults.map (fun r => r.2.2.2)
  let totalBuys := (tradesInPeriod.filter (fun t => decide (t.type = .buy))).length
  let totalSells := (tradesInPeriod.filter (fun t => decide (t.type = .sell))).length
  let totalTrades := tradesInPeriod.length
  let winRate := if 0 < totalSells then ((winCount : ℚ) / totalSells) * 100 else 0
  let totalSolVolume := (tradesInPeriod.map Trade.solAmount).sum
  let avgTradeSize := if 0 < totalTrades then totalSolVolume / totalTrades else 0
  let holdPositions := periodPositions.filter
    (fun p => decide (0 < p.totalSold) && !decide (p.firstTradeAt = 0) &&
      !decide (p.lastTradeAt = 0))
  let totalHoldDuration : Int :=
    (holdPositions.map (fun p => p.lastTradeAt - p.firstTradeAt)).sum
  let holdCount := holdPositions.length
  let avgHoldDuration :=
    if 0 < holdCount then (totalHoldDuration : ℚ) / holdCount else 0
  let uniqueTokensTraded := (tradesInPeriod.map Trade.tokenMint).dedup.length
  let sellTrades := tradesInPeriod.filter (fun t => decide (t.type = .sell))
  let bestWorst := sellTrades.foldl (bestWorstStep allPositions) (none, none)
  { walletAddress := walletAddress
    timeframe := timeframe
    periodStart := periodStart
    periodEnd := now
    totalRealizedPnL := totalRealizedPnL
    totalTrades := totalTrades
    totalBuys := totalBuys
    totalSells := totalSells
    winCount := winCount
    lossCount := lossCount
    winRate := winRate
    totalSolVolume := totalSolVolume
    avgTradeSize := avgTradeSize
    avgHoldDuration := avgHoldDuration
    uniqueTokensTraded := uniqueTokensTraded
    bestTrade := (bestWorst.1.map Prod.fst)
    worstTrade := (bestWorst.2.map Prod.fst)
    positions := periodPositions }

/-! ## Follow simulator (followSimulator.ts) -/

/-- Slippage model selector. -/
inductive SlippageModel where
  | conservative
  | moderate
  | aggressive
deriving DecidableEq, Repr

/-- `getSlippage`: slippage fraction by trade-size bucket and model. -/
def getSlippage (solAmount : ℚ) (model : SlippageModel) : ℚ :=
  match model with
  | .conservative =>
    if solAmount < 1/2 then 1/100 else if solAmount < 2 then 2/100 else 5/100
  | .moderate =>
    if solAmount < 1/2 then 2/100 else if solAmount < 2 then 5/100 else 10/100
  | .aggressive =>
    if solAmount < 1/2 then 3/100 else if solAmount < 2 then 8/100 else 15/100

/-- `getFollowabilityScore`: weight in [0,1] from time to first sell. -/
def getFollowabilityScore (timeToFirstSellSec : Int) : ℚ :=
  if timeToFirstSellSec < 30 then 0
  else if timeToFirstSellSec < 60 then 1/5
  else if timeToFirstSellSec < 120 then 1/2
  else if timeToFirstSellSec < 300 then 4/5
  else 1

/-- Per-token round trip produced by the simulator. -/
structure TokenRoundTrip where
  tokenMint : String
  buys : List Trade
  sells : List Trade
  timeToFirstSellSec : Int
  actualPnL : ℚ
  simulatedPnL : ℚ
  totalBuySol : ℚ
  isFollowable : Bool
deriving Repr

/-- Loop body of `simulateFollowReturns` for one mint group: `none` for
incomplete round trips (no buy or no sell). -/
def processToken (delaySeconds : ℚ) (model : SlippageModel)
    (g : String × List Trade) : Option TokenRoundTrip :=
  let sorted := sortByTs g.2
  let buys := sorted.filter (fun t => decide (t.type = .buy))
  let sells := sorted.filter (fun t => decide (t.type = .sell))
  match buys.head?, sells.head? with
  | some firstBuy, some firstSell =>
    let timeToFirstSellSec := firstSell.timestamp - firstBuy.timestamp
    let totalBought := (buys.map Trade.solAmount).sum
    let totalSold := (sells.map Trade.solAmount).sum
    let actualPnL := totalSold - totalBought
    let followabilityScore := getFollowabilityScore timeToFirstSellSec
    let simulatedPnL :=
      if 0 < followabilityScore then
        let simulatedCost := (buys.map (fun buy =>
          buy.solAmount *
            (1 + (getSlippage buy.solAmount model + delaySeconds * (1/1000))))).sum
        let simulatedProceeds := (sells.map (fun sell =>
          sell.solAmount *
            (1 - (getSlippage sell.solAmount model + delaySeconds * (1/1000))))).sum
        (simulatedProceeds - simulatedCost) * followabilityScore
      else 0
    some
      { tokenMint := g.1
        buys := buys
        sells := sells
        timeToFirstSellSec := timeToFirstSellSec
        actualPnL := actualPnL
        simulatedPnL := simulatedPnL
        totalBuySol := totalBought
        isFollowable := decide ((1:ℚ)/2 ≤ followabilityScore) }
  | _, _ => none

/-- Insertion step for sorting integers ascending. -/
def insertInt (x : Int) : List Int → List Int
  | [] => [x]
  | y :: ys => if x ≤ y then x :: y :: ys else y :: insertInt x ys

/-- Ascending sort of integers (`sort((a, b) => a - b)`). -/
def sortInts : List Int → List Int
  | [] => []
  | x :: xs => insertInt x (sortInts xs)

/-- Median of the time-to-first-sell samples, halves averaged for even
sample counts. -/
def medianOfTimes (times : List Int) : Option ℚ :=
  match times with
  | [] => none
  | _ =>
    let sorted := sortInts times
    let mid := sorted.length / 2
    if sorted.length % 2 = 0 then
      some ((((sorted.getD (mid - 1) 0) + (sorted.getD mid 0)) : ℚ) / 2)
    else some ((sorted.getD mid 0 : ℚ))

/-- The simulator's aggregate result record. -/
structure FollowSimulationResult where
  walletAddress : String
  delaySeconds : ℚ
  slippageModel : SlippageModel
  actualPnL : ℚ
  simulatedPnL : ℚ
  followabilityRatio : ℚ
  avgTimeToFirstSellSec : Option ℚ
  medianTimeToFirstSellSec : Option ℚ
  quickDumpRate : ℚ
  totalTokensTraded : Nat
  followableTokens : Nat
  unfollowableTokens : Nat
  avgEntrySizeSol : ℚ
  tokenBreakdown : List TokenRoundTrip
deriving Repr

/-- `simulateFollowReturns`, with the wallet's stored trades passed
explicitly in place of the database read. -/
def simulateFollowReturns (walletAddress : String) (trades : List Trade)
    (delaySeconds : ℚ) (model : SlippageModel) : FollowSimulationResult :=
  let tokenBreakdown :=
    (groupByMint trades).filterMap (processToken delaySeconds model)
  let totalActualPnL := (tokenBreakdown.map TokenRoundTrip.actualPnL).sum
  let totalSimulatedPnL := (tokenBreakdown.map TokenRoundTrip.simulatedPnL).sum
  let totalBuySol := (tokenBreakdown.map TokenRoundTrip.totalBuySol).sum
  let timeToFirstSells := tokenBreakdown.map TokenRoundTrip.timeToFirstSellSec
  let quickDumpCount :=
    (tokenBreakdown.filter (fun rt => decide (rt.timeToFirstSellSec < 60))).length
  let followableCount := (tokenBreakdown.filter TokenRoundTrip.isFollowable).length
  let unfollowableCount :=
    (tokenBreakdown.filter (fun rt => !rt.isFollowable)).length
  let totalTokensTraded := tokenBreakdown.length
  let quickDumpRate :=
    if 0 < totalTokensTraded then (quickDumpCount : ℚ) / totalTokensTraded else 0
  let avgEntrySizeSol :=
    if 0 < totalTokensTraded then totalBuySol / totalTokensTraded else 0
  let avgTimeToFirstSellSec : Option ℚ :=
    match timeToFirstSells with
    | [] => none
    | _ => some ((timeToFirstSells.sum : ℚ) / timeToFirstSells.length)
  let medianTimeToFirstSellSec := medianOfTimes timeToFirstSells
  let followabilityRatio :=
    if 0 < totalActualPnL ∧ 0 < totalSimulatedPnL then
      totalSimulatedPnL / totalActualPnL
    else if 0 < totalActualPnL ∧ totalSimulatedPnL ≤ 0 then
      totalSimulatedPnL / totalActualPnL
    else 0
  { walletAddress := walletAddress
    delaySeconds := delaySeconds
    slippageModel := model
    actualPnL := totalActualPnL
    simulatedPnL := totalSimulatedPnL
    followabilityRatio := followabilityRatio
    avgTimeToFirstSellSec := avgTimeToFirstSellSec
    medianTimeToFirstSellSec := medianTimeToFirstSellSec
    quickDumpRate := quickDumpRate
    totalTokensTraded := totalTokensTraded
    followableTokens := followableCount
    unfollowableTokens := unfollowableCount
    avgEntrySizeSol := avgEntrySizeSol
    tokenBreakdown := tokenBreakdown }

/-- A persisted `wallet_follow_scores` row. -/
structure FollowScoreRow where
  wallet_address : String
  delay_seconds : ℚ
  slippage_model : SlippageModel
  actual_pnl : ℚ
  simulated_pnl : ℚ
  followability_ratio : ℚ
  avg_time_to_first_sell_sec : Option ℚ
  median_time_to_first_sell_sec : Option ℚ
  quick_dump_rate : ℚ
  total_tokens_traded : Nat
  followable_tokens : Nat
  unfollowable_tokens : Nat
  avg_entry_size_sol : ℚ
deriving DecidableEq, Repr

/-- `getFollowScore`, with the stored row (or its absence) passed explicitly
in place of the database lookup.  The stored row never contains the
per-token breakdown, so the result carries an empty `tokenBreakdown`. -/
def getFollowScore (row : Option FollowScoreRow) :
    Option FollowSimulationResult :=
  match row with
  | none => none
  | some r =>
    some
      { walletAddress := r.wallet_address
        delaySeconds := r.delay_seconds
        slippageModel := r.slippage_model
        actualPnL := r.actual_pnl
        simulatedPnL := r.simulated_pnl
        followabilityRatio := r.followability_ratio
        avgTimeToFirstSellSec := r.avg_time_to_first_sell_sec
        medianTimeToFirstSellSec := r.median_time_to_first_sell_sec
        quickDumpRate := r.quick_dump_rate
        totalTokensTraded := r.total_tokens_traded
        followableTokens := r.followable_tokens
        unfollowableTokens := r.unfollowable_tokens
        avgEntrySizeSol := r.avg_entry_size_sol
        tokenBreakdown := [] }

/-! ## Sync coordinator signature paging (helius.ts) -/

/-- A confirmed signature entry returned by the provider. -/
structure SignatureInfo where
  signature : String
deriving DecidableEq, Repr

/-- One paging iteration of `getAllSignaturesForAddress`.  `provider` stands
for `getSignaturesForAddress(address, {limit, before, until})`; the `fuel`
argument only makes the model total — every continuing iteration appends a
batch of length ≥ 1000, so `maxSignatures + 1` iterations are never
exhausted before the loop's own exit conditions fire. -/
def fetchSignaturesLoop
    (provider : Nat → Option String → Option String → List SignatureInfo)
    (untilSig : Option String) (maxSignatures : Nat) :
    Nat → List SignatureInfo → Option String → List SignatureInfo
  | 0, acc, _ => acc
  | fuel + 1, acc, beforeCursor =>
    if acc.length < maxSignatures then
      let batch := provider 1000 beforeCursor untilSig
      if batch = [] then acc
      else
        match untilSig.bind
            (fun u => batch.findIdx? (fun s => decide (s.signature = u))) with
        | some untilIndex => acc ++ batch.take untilIndex
        | none =>
          let acc2 := acc ++ batch
          if batch.length < 1000 then acc2
          else
            fetchSignaturesLoop provider untilSig maxSignatures fuel acc2
              ((batch.getLast?).map SignatureInfo.signature)
    else acc

/-- `getAllSignaturesForAddress`: page 1000-signature batches until an empty
batch, the `until` signature, a short batch, or the safety cap. -/
def getAllSignaturesForAddress
    (provider : Nat → Option String → Option String → List SignatureInfo)
    (untilSig : Option String) (maxSignatures : Nat) : List SignatureInfo :=
  fetchSignaturesLoop provider untilSig maxSignatures (maxSignatures + 1) [] none

/-- The signature fetch of `syncWalletTransactions`: incremental cursor as
`until`, safety cap 5000. -/
def syncFetchSignatures
    (provider : Nat → Option String → Option String → List SignatureInfo)
    (lastSignature : Option String) : List SignatureInfo :=
  getAllSignaturesForAddress provider lastSignature 5000

/-! ## Concrete fixtures used by the scenario claims -/

/-- Mint used by the FIFO scenario fixtures. -/
def fixMint : String := "FIXMINT1111111111111111111111111111111111111"

/-- Scenario C2: buy 500 tokens for 1.0 SOL at price 0.002. -/
def c2Buy1 : Trade :=
  { id := "s1-buy-m", walletAddress := "W", signature := "s1", timestamp := 1,
    type := .buy, tokenMint := fixMint, tokenSymbol := none,
    tokenAmount := 500, solAmount := 1, pricePerToken := 1/500, dex := "D" }

/-- Scenario C2: buy 500 tokens for 2.0 SOL at price 0.004. -/
def c2Buy2 : Trade :=
  { id := "s2-buy-m", walletAddress := "W", signature := "s2", timestamp := 2,
    type := .buy, tokenMint := fixMint, tokenSymbol := none,
    tokenAmount := 500, solAmount := 2, pricePerToken := 1/250, dex := "D" }

/-- Scenario C2: sell 600 tokens for 3.0 SOL. -/
def c2Sell : Trade :=
  { id := "s3-sell-m", walletAddress := "W", signature := "s3", timestamp := 3,
    type := .sell, tokenMint := fixMint, tokenSymbol := none,
    tokenAmount := 600, solAmount := 3, pricePerToken := 1/200, dex := "D" }

/-- A sell of 10 tokens for 2 SOL at timestamp 1 (C6/C3 fixtures). -/
def tieSell : Trade :=
  { id := "sa-sell-m", walletAddress := "W", signature := "sa", timestamp := 1,
    type := .sell, tokenMint := fixMint, tokenSymbol := none,
    tokenAmount := 10, solAmount := 2, pricePerToken := 1/5, dex := "D" }

/-- A buy of 10 tokens for 1 SOL at timestamp 1 (C6 fixture). -/
def tieBuy : Trade :=
  { id := "sb-buy-m", walletAddress := "W", signature := "sb", timestamp := 1,
    type := .buy, tokenMint := fixMint, tokenSymbol := none,
    tokenAmount := 10, solAmount := 1, pricePerToken := 1/10, dex := "D" }

/-- A buy of 10 tokens for 1 SOL at timestamp 2 (C3 counterexample). -/
def lateBuy : Trade :=
  { id := "sc-buy-m", walletAddress := "W", signature := "sc", timestamp := 2,
    type := .buy, tokenMint := fixMint, tokenSymbol := none,
    tokenAmount := 10, solAmount := 1, pricePerToken := 1/10, dex := "D" }

/-! ## C2 — partial FIFO matching scenario -/

/-- C2: For the trade stream buy 500 @ 0.002 (1.0 SOL), buy 500 @ 0.004
(2.0 SOL), sell 600 for 3.0 SOL, `calculateFIFOPnL` matches the sell
against the oldest lots first: matched cost 1.4 (= proceeds 3 minus
realized PnL 1.6), realized PnL 1.6, and exactly one remaining open lot of
400 tokens at price 0.004. -/
theorem c2_partial_fifo_matching :
    (calculateFIFOPnL ("W") [c2Buy1, c2Buy2, c2Sell]).totalRealizedPnL = 8/5 ∧
    (calculateFIFOPnL ("W") [c2Buy1, c2Buy2, c2Sell]).mintResults.map
        (fun mr => (mr.position.realizedPnL, mr.position.totalProceeds,
          mr.position.totalProceeds - mr.position.realizedPnL))
      = [(8/5, 3, 7/5)] ∧
    (calculateFIFOPnL ("W") [c2Buy1, c2Buy2, c2Sell]).mintResults.map
        (fun mr => mr.lots.map (fun l => (l.remaining, l.price)))
      = [[(400, 1/250)]] := by
  norm_num [c2Buy1, c2Buy2, c2Sell, calculateFIFOPnL, groupByMint,
    processMint, sortByTs, insertByTs, fifoStep, fifoInit, matchLots,
    firstTs, lastTs, fixMint]

/-! ## C6 — tie-breaking of equal-timestamp trades -/

/-- C6 counterexample: the source sorts each mint group only by timestamp
(a stable sort), with no signature/side tiebreaker.  For a sell and a buy
with equal timestamps given sell-first, the sell is processed first and is
matched at zero cost (realized PnL 2), whereas processing the buy before
the sell gives realized PnL 1 — so the result does not equal the result of
processing the buy first, refuting the claimed tie-break. -/
theorem c6_no_side_tiebreak_cex :
    (calculateFIFOPnL ("W") [tieSell, tieBuy]).totalRealizedPnL = 2 ∧
    (calculateFIFOPnL ("W") [tieBuy, tieSell]).totalRealizedPnL = 1 ∧
    (calculateFIFOPnL ("W") [tieSell, tieBuy]).totalRealizedPnL ≠
      (calculateFIFOPnL ("W") [tieBuy, tieSell]).totalRealizedPnL := by
  norm_num [tieSell, tieBuy, calculateFIFOPnL, groupByMint, processMint,
    sortByTs, insertByTs, fifoStep, fifoInit, matchLots, firstTs, lastTs,
    fixMint]

/-- `insertByTs` keeps a timestamp-sorted list sorted. -/
theorem insertByTs_pairwise (t : Trade) (ts : List Trade)
    (h : List.Pairwise (fun a b => a.timestamp ≤ b.timestamp) ts) :
    List.Pairwise (fun a b => a.timestamp ≤ b.timestamp) (insertByTs t ts) := by
  induction ts with
  | nil => simp [insertByTs]
  | cons u us ih =>
    rcases List.pairwise_cons.1 h with ⟨hu, hus⟩
    by_cases hle : t.timestamp ≤ u.timestamp
    · simp only [insertByTs, if_pos hle]
      refine List.pairwise_cons.2 ⟨?_, h⟩
      intro v hv
      rcases List.mem_cons.1 hv with hv | hv
      · simpa [hv] using hle
      · exact le_trans hle (hu v hv)
    · simp only [insertByTs, if_neg hle]
      refine List.pairwise_cons.2 ⟨?_, ih hus⟩
      intro v hv
      have hins : v ∈ insertByTs t us := hv
      have hmem : v = t ∨ v ∈ us := by
        have : ∀ (l : List Trade) (x : Trade), x ∈ insertByTs t l →
            x = t ∨ x ∈ l := by
          intro l
          induction l with
          | nil => intro x hx; simpa [insertByTs] using hx
          | cons w ws ihw =>
            intro x hx
            simp only [insertByTs] at hx
            by_cases hc : t.timestamp ≤ w.timestamp
            · rw [if_pos hc] at hx
              rcases List.mem_cons.1 hx with hx | hx
              · exact Or.inl hx
              · exact Or.inr hx
            · rw [if_neg hc] at hx
              rcases List.mem_cons.1 hx with hx | hx
              · exact Or.inr (by simp [hx])
              · rcases ihw x hx with hx2 | hx2
                · exact Or.inl hx2
                · exact Or.inr (by simp [hx2])
        exact this us v hins
      rcases hmem with hv2 | hv2
      · subst hv2; exact le_of_not_le hle
      · exact hu v hv2

/-- C6 (amended): within each mint group, trades are processed in ascending
timestamp order with ties retaining input order (a stable sort — no
signature or side tiebreaker): the sort always produces a timestamp-sorted
list, an already-sorted list is left exactly as given, and for a
same-timestamp sell listed before a buy the sell is processed first and
matched at zero cost (realized PnL 2 on the tie fixture). -/
theorem c6_stable_timestamp_order (ts : List Trade) :
    List.Pairwise (fun a b => a.timestamp ≤ b.timestamp) (sortByTs ts) ∧
    (List.Pairwise (fun a b => a.timestamp ≤ b.timestamp) ts →
      sortByTs ts = ts) ∧
    (calculateFIFOPnL ("W") [tieSell, tieBuy]).totalRealizedPnL = 2 := by
  refine ⟨?_, ?_, c6_no_side_tiebreak_cex.1⟩
  · induction ts with
    | nil => simp [sortByTs]
    | cons t rest ih => exact insertByTs_pairwise t _ ih
  · intro hsorted
    induction ts with
    | nil => rfl
    | cons t rest ih =>
      rcases List.pairwise_cons.1 hsorted with ⟨ht, hrest⟩
      have hrec : sortByTs rest = rest := ih hrest
      simp only [sortByTs, hrec]
      cases rest with
      | nil => rfl
      | cons u us => simp [insertByTs, ht u (by simp)]

/-- Witness for C6 (amended) at a concrete sorted input. -/
theorem c6_stable_timestamp_order_witness :
    sortByTs [tieBuy, c2Sell] = [tieBuy, c2Sell] :=
  (c6_stable_timestamp_order [tieBuy, c2Sell]).2.1 (by decide)

/-! ## C9 — parser determinism and purity -/

/-- Every parsed trade is an application of `createTrade` to the input. -/
def tradeShape (tx : HeliusEnhancedTransaction) (w : String) (t : Trade) :
    Prop :=
  ∃ ty mint amt sol, t = createTrade tx w ty mint amt sol

/-- Trades of strategy C's buy pass are built by `createTrade`. -/
theorem tradeShape_swapEventBuys {tx : HeliusEnhancedTransaction} {w : String}
    {swap : SwapEvent} {t : Trade} (h : t ∈ swapEventBuys tx w swap) :
    tradeShape tx w t := by
  simp only [swapEventBuys] at h
  split at h
  · simp at h
  · split at h
    · rcases List.mem_filterMap.1 h with ⟨leg, _, hf⟩
      split_ifs at hf <;>
        first
          | exact ⟨_, _, _, _, (Option.some.inj hf).symm⟩
          | simp at hf
    · simp at h

/-- Trades of strategy C's sell pass are built by `createTrade`. -/
theorem tradeShape_swapEventSells {tx : HeliusEnhancedTransaction} {w : String}
    {swap : SwapEvent} {t : Trade} (h : t ∈ swapEventSells tx w swap) :
    tradeShape tx w t := by
  simp only [swapEventSells] at h
  split at h
  · simp at h
  · split at h
    · rcases List.mem_filterMap.1 h with ⟨leg, _, hf⟩
      split_ifs at hf <;>
        first
          | exact ⟨_, _, _, _, (Option.some.inj hf).symm⟩
          | simp at hf
    · simp at h

/-- Trades of strategy B are built by `createTrade`. -/
theorem tradeShape_parseFromBalanceChanges {tx : HeliusEnhancedTransaction}
    {w : String} {t : Trade} (h : t ∈ parseFromBalanceChanges tx w) :
    tradeShape tx w t := by
  simp only [parseFromBalanceChanges] at h
  split at h
  · simp at h
  · rcases List.mem_filterMap.1 h with ⟨p, _, hf⟩
    split_ifs at hf <;>
      first
        | exact ⟨_, _, _, _, (Option.some.inj hf).symm⟩
        | simp at hf

/-- Trades of strategy A's direct-SOL case are built by `createTrade`. -/
theorem tradeShape_transfersTradesWithSol {tx : HeliusEnhancedTransaction}
    {w : String} {solDelta : ℚ} {targets : QMap} {t : Trade}
    (h : t ∈ transfersTradesWithSol tx w solDelta targets) :
    tradeShape tx w t := by
  simp only [transfersTradesWithSol] at h
  rcases List.mem_filterMap.1 h with ⟨p, _, hf⟩
  split_ifs at hf <;>
    first
      | exact ⟨_, _, _, _, (Option.some.inj hf).symm⟩
      | simp at hf

/-- Trades of strategy A's intermediate-proxy case are built by
`createTrade`. -/
theorem tradeShape_transfersTradesViaIntermediate
    {tx : HeliusEnhancedTransaction} {w : String} {solDelta : ℚ}
    {inter targets : QMap} {t : Trade}
    (h : t ∈ transfersTradesViaIntermediate tx w solDelta inter targets) :
    tradeShape tx w t := by
  simp only [transfersTradesViaIntermediate] at h
  rcases List.mem_filterMap.1 h with ⟨p, _, hf⟩
  split_ifs at hf <;>
    first
      | exact ⟨_, _, _, _, (Option.some.inj hf).symm⟩
      | simp at hf

/-- Trades of strategy A's airdrop case are built by `createTrade`. -/
theorem tradeShape_transfersTradesAirdrop {tx : HeliusEnhancedTransaction}
    {w : String} {targets : QMap} {t : Trade}
    (h : t ∈ transfersTradesAirdrop tx w targets) : tradeShape tx w t := by
  simp only [transfersTradesAirdrop] at h
  rcases List.mem_filterMap.1 h with ⟨p, _, hf⟩
  split_ifs at hf <;>
    first
      | exact ⟨_, _, _, _, (Option.some.inj hf).symm⟩
      | simp at hf

/-- Trades of strategy A are built by `createTrade`. -/
theorem tradeShape_parseFromTransfers {tx : HeliusEnhancedTransaction}
    {w : String} {t : Trade} (h : t ∈ parseFromTransfers tx w) :
    tradeShape tx w t := by
  simp only [parseFromTransfers] at h
  split_ifs at h
  · exact tradeShape_transfersTradesWithSol h
  · exact tradeShape_transfersTradesViaIntermediate h
  · exact tradeShape_transfersTradesAirdrop h
  · simp at h

/-- Trades of strategy C are built by `createTrade`. -/
theorem tradeShape_parseFromSwapEvent {tx : HeliusEnhancedTransaction}
    {w : String} {t : Trade} (h : t ∈ parseFromSwapEvent tx w) :
    tradeShape tx w t := by
  simp only [parseFromSwapEvent] at h
  split at h
  · simp at h
  · rcases List.mem_append.1 h with h2 | h2
    · exact tradeShape_swapEventBuys h2
    · exact tradeShape_swapEventSells h2

/-- Every trade returned by the parser is built by `createTrade`. -/
theorem tradeShape_parseEnhancedTransaction {tx : HeliusEnhancedTransaction}
    {w : String} {t : Trade} (h : t ∈ parseEnhancedTransaction tx w) :
    tradeShape tx w t := by
  simp only [parseEnhancedTransaction] at h
  split_ifs at h
  · simp at h
  · exact tradeShape_parseFromTransfers h
  · exact tradeShape_parseFromBalanceChanges h
  · split at h
    · exact tradeShape_parseFromSwapEvent h
    · simp at h

/-- C9: `parseEnhancedTransaction` is a pure function of the record and the
wallet address — two runs on the same inputs return the same trade list
(same trades, ids and order), and every returned trade's signature,
timestamp, wallet and deterministic id are functions of those inputs
alone.  Statefulness is unrepresentable in the embedding: the function
reads and writes nothing outside its arguments. -/
theorem c9_parser_purity (tx : HeliusEnhancedTransaction) (w : String) :
    parseEnhancedTransaction tx w = parseEnhancedTransaction tx w ∧
    (∀ t, t ∈ parseEnhancedTransaction tx w →
      t.signature = tx.signature ∧ t.walletAddress = w ∧
      t.timestamp = tx.timestamp ∧
      t.id = tx.signature ++ ("-") ++ t.type.str ++ ("-") ++ t.tokenMint) := by
  refine ⟨rfl, ?_⟩
  intro t ht
  rcases tradeShape_parseEnhancedTransaction ht with ⟨ty, mint, amt, sol, rfl⟩
  exact ⟨rfl, rfl, rfl, rfl⟩

/-- The balance-diff record used as a witness input (and as the C1
counterexample): a transaction with no transfers whose account data shows a
USDC balance change for the wallet. -/
def usdcBalanceTx : HeliusEnhancedTransaction :=
  { signature := "sigX"
    timestamp := 100
    txType := ""
    source := ""
    transactionError := none
    nativeTransfers := []
    tokenTransfers := []
    accountData :=
      [{ account := "poolAcc"
         nativeBalanceChange := 0
         tokenBalanceChanges :=
           [{ mint := USDC_MINT
              rawTokenAmount := { tokenAmount := 5000000, decimals := 6 }
              userAccount := "walletW" }] }]
    swapEvent := none }

/-- Witness for C9 at a concrete record: the parse is reproducible and the
produced trade's identity fields are the deterministic ones. -/
theorem c9_parser_purity_witness :
    parseEnhancedTransaction usdcBalanceTx ("walletW") =
      parseEnhancedTransaction usdcBalanceTx ("walletW") ∧
    ∀ t, t ∈ parseEnhancedTransaction usdcBalanceTx ("walletW") →
      t.signature = ("sigX") ∧ t.walletAddress = ("walletW") := by
  refine ⟨(c9_parser_purity usdcBalanceTx ("walletW")).1, ?_⟩
  intro t ht
  rcases (c9_parser_purity usdcBalanceTx ("walletW")).2 t ht with ⟨h1, h2, _, _⟩
  exact ⟨h1, h2⟩

/-! ## C10 — cached follow score lookup -/

/-- C10: `getFollowScore` returns `none` exactly when no score row is
stored for the wallet, and any result built from a stored row carries an
empty `tokenBreakdown` — the per-token breakdown is only available from a
fresh simulation. -/
theorem c10_follow_score_lookup (row : Option FollowScoreRow) :
    (getFollowScore row = none ↔ row = none) ∧
    (∀ r res, row = some r → getFollowScore row = some res →
      res.tokenBreakdown = []) := by
  constructor
  · cases row with
    | none => simp [getFollowScore]
    | some r => simp [getFollowScore]
  · intro r res hrow hres
    subst hrow
    simp only [getFollowScore] at hres
    rw [← Option.some.inj hres]

/-- A concrete stored score row for the C10 witness. -/
def sampleScoreRow : FollowScoreRow :=
  { wallet_address := "walletW"
    delay_seconds := 5
    slippage_model := .moderate
    actual_pnl := 10
    simulated_pnl := 4
    followability_ratio := 2/5
    avg_time_to_first_sell_sec := some 90
    median_time_to_first_sell_sec := some 80
    quick_dump_rate := 1/4
    total_tokens_traded := 4
    followable_tokens := 3
    unfollowable_tokens := 1
    avg_entry_size_sol := 2 }

/-- Witness for C10 at a concrete row: a stored row yields a result, and
that result's token breakdown is empty. -/
theorem c10_follow_score_lookup_witness :
    (getFollowScore (some sampleScoreRow) = none ↔
      (some sampleScoreRow : Option FollowScoreRow) = none) ∧
    ∀ res, getFollowScore (some sampleScoreRow) = some res →
      res.tokenBreakdown = [] := by
  refine ⟨(c10_follow_score_lookup (some sampleScoreRow)).1, ?_⟩
  intro res hres
  exact (c10_follow_score_lookup (some sampleScoreRow)).2 sampleScoreRow res rfl
    hres

/-! ## C7 — followability tiers and quick dumps -/

/-- A round trip whose computed time to first sell is under 30 s has
followability score 0 and contributes 0 simulated PnL. -/
theorem processToken_quick_dump {delay : ℚ} {model : SlippageModel}
    {g : String × List Trade} {rt : TokenRoundTrip}
    (h : processToken delay model g = some rt)
    (hfast : rt.timeToFirstSellSec < 30) :
    getFollowabilityScore rt.timeToFirstSellSec = 0 ∧ rt.simulatedPnL = 0 := by
  simp only [processToken] at h
  split at h
  · rename_i fB fS hb hs
    have hrt := (Option.some.inj h).symm
    subst hrt
    simp only at hfast ⊢
    have hscore : getFollowabilityScore (fS.timestamp - fB.timestamp) = 0 := by
      simp [getFollowabilityScore, if_pos hfast]
    refine ⟨hscore, ?_⟩
    simp only [hscore]
    norm_num
  · simp at h

/-- C7: followability score tiers (0 below 30 s, 0.2 in [30, 60), 0.5 in
[60, 120), 0.8 in [120, 300), 1 from 300 s), and in the simulator any
round trip (a mint with at least one buy and one sell) whose first sell
comes under 30 s after the first buy has score 0, contributes 0 to
simulated PnL, and is among the round trips counted as quick dumps
(time to first sell under 60 s). -/
theorem c7_follow_simulator_tiers (walletAddress : String)
    (trades : List Trade) (delay : ℚ) (model : SlippageModel) :
    (∀ t : Int, t < 30 → getFollowabilityScore t = 0) ∧
    (∀ t : Int, 30 ≤ t → t < 60 → getFollowabilityScore t = 1/5) ∧
    (∀ t : Int, 60 ≤ t → t < 120 → getFollowabilityScore t = 1/2) ∧
    (∀ t : Int, 120 ≤ t → t < 300 → getFollowabilityScore t = 4/5) ∧
    (∀ t : Int, 300 ≤ t → getFollowabilityScore t = 1) ∧
    (∀ rt, rt ∈ (simulateFollowReturns walletAddress trades delay
        model).tokenBreakdown →
      rt.timeToFirstSellSec < 30 →
      getFollowabilityScore rt.timeToFirstSellSec = 0 ∧ rt.simulatedPnL = 0 ∧
      rt ∈ (simulateFollowReturns walletAddress trades delay
          model).tokenBreakdown.filter
        (fun x => decide (x.timeToFirstSellSec < 60))) := by
  refine ⟨?_, ?_, ?_, ?_, ?_, ?_⟩
  · intro t ht; simp [getFollowabilityScore, if_pos ht]
  · intro t h1 h2
    simp [getFollowabilityScore, if_neg (by omega : ¬t < 30), if_pos h2]
  · intro t h1 h2
    simp [getFollowabilityScore, if_neg (by omega : ¬t < 30),
      if_neg (by omega : ¬t < 60), if_pos h2]
  · intro t h1 h2
    simp [getFollowabilityScore, if_neg (by omega : ¬t < 30),
      if_neg (by omega : ¬t < 60), if_neg (by omega : ¬t < 120), if_pos h2]
  · intro t h1
    simp [getFollowabilityScore, if_neg (by omega : ¬t < 30),
      if_neg (by omega : ¬t < 60), if_neg (by omega : ¬t < 120),
      if_neg (by omega : ¬t < 300)]
  · intro rt hmem hfast
    have hbk : rt ∈ (groupByMint trades).filterMap
        (processToken delay model) := by
      simpa [simulateFollowReturns] using hmem
    rcases List.mem_filterMap.1 hbk with ⟨g, _, hg⟩
    rcases processToken_quick_dump hg hfast with ⟨hscore, hpnl⟩
    refine ⟨hscore, hpnl, ?_⟩
    exact List.mem_filter.2 ⟨hmem, by simpa using lt_trans hfast (by norm_num)⟩

/-- Evaluation helper: `decide` on trade-side equality, buy/buy. -/
theorem decide_tt_bb : decide (TradeType.buy = TradeType.buy) = true := rfl

/-- Evaluation helper: `decide` on trade-side equality, buy/sell. -/
theorem decide_tt_bs : decide (TradeType.buy = TradeType.sell) = false := rfl

/-- Evaluation helper: `decide` on trade-side equality, sell/buy. -/
theorem decide_tt_sb : decide (TradeType.sell = TradeType.buy) = false := rfl

/-- Evaluation helper: `decide` on trade-side equality, sell/sell. -/
theorem decide_tt_ss : decide (TradeType.sell = TradeType.sell) = true := rfl

/-- Quick-dump fixture: buy at t = 0, first sell 20 s later. -/
def qdBuy : Trade :=
  { id := "qb-buy-m", walletAddress := "W", signature := "qb", timestamp := 0,
    type := .buy, tokenMint := fixMint, tokenSymbol := none,
    tokenAmount := 100, solAmount := 1, pricePerToken := 1/100, dex := "D" }

/-- Quick-dump fixture: the sell 20 s after the buy. -/
def qdSell : Trade :=
  { id := "qd-sell-m", walletAddress := "W", signature := "qd", timestamp := 20,
    type := .sell, tokenMint := fixMint, tokenSymbol := none,
    tokenAmount := 100, solAmount := 3, pricePerToken := 3/100, dex := "D" }

/-- Witness for C7: on the 20-second round trip, the round trip appears in
the breakdown with score 0, simulated PnL 0, and is counted as a quick
dump; the tier facts hold at the boundary samples 20, 45, 90, 200, 400. -/
theorem c7_follow_simulator_tiers_witness :
    getFollowabilityScore 20 = 0 ∧ getFollowabilityScore 45 = 1/5 ∧
    getFollowabilityScore 90 = 1/2 ∧ getFollowabilityScore 200 = 4/5 ∧
    getFollowabilityScore 400 = 1 ∧
    ∀ rt, rt ∈ (simulateFollowReturns ("W") [qdBuy, qdSell] 5
        .moderate).tokenBreakdown →
      getFollowabilityScore rt.timeToFirstSellSec = 0 ∧
      rt.simulatedPnL = 0 := by
  have h := c7_follow_simulator_tiers ("W") [qdBuy, qdSell] 5 .moderate
  refine ⟨h.1 20 (by norm_num), h.2.1 45 (by norm_num) (by norm_num),
    h.2.2.1 90 (by norm_num) (by norm_num),
    h.2.2.2.1 200 (by norm_num) (by norm_num),
    h.2.2.2.2.1 400 (by norm_num), ?_⟩
  intro rt hmem
  have h20 : rt.timeToFirstSellSec = 20 := by
    have : (simulateFollowReturns ("W") [qdBuy, qdSell] 5
        .moderate).tokenBreakdown.map TokenRoundTrip.timeToFirstSellSec
        = [20] := by
      norm_num [simulateFollowReturns, groupByMint, processToken, sortByTs,
        insertByTs, qdBuy, qdSell, fixMint, getFollowabilityScore,
        List.filterMap, List.filter, getSlippage, decide_tt_bb, decide_tt_bs,
        decide_tt_sb, decide_tt_ss]
    have hm : rt.timeToFirstSellSec ∈
        (simulateFollowReturns ("W") [qdBuy, qdSell] 5
          .moderate).tokenBreakdown.map TokenRoundTrip.timeToFirstSellSec :=
      List.mem_map_of_mem _ hmem
    rw [this] at hm
    simpa using hm
  have hlt : rt.timeToFirstSellSec < 30 := by omega
  rcases h.2.2.2.2.2 rt hmem hlt with ⟨hs, hp, _⟩
  exact ⟨hs, hp⟩

/-! ## C8 — signature paging safety cap -/

/-- Paging invariant: starting from an accumulator whose length is a
multiple of 1000 and at most 5000, the loop never returns more than 5000
signatures when every provider batch respects the 1000 limit. -/
theorem fetchSignaturesLoop_le_5000
    (provider : Nat → Option String → Option String → List SignatureInfo)
    (untilSig : Option String)
    (hP : ∀ b, (provider 1000 b untilSig).length ≤ 1000) :
    ∀ fuel acc cursor, acc.length % 1000 = 0 → acc.length ≤ 5000 →
      (fetchSignaturesLoop provider untilSig 5000 fuel acc cursor).length
        ≤ 5000 := by
  intro fuel
  induction fuel with
  | zero => intro acc cursor _ hle; simpa [fetchSignaturesLoop] using hle
  | succ n ih =>
    intro acc cursor hmod hle
    have hb := hP cursor
    simp only [fetchSignaturesLoop]
    split
    next hlt =>
      split
      next hempty => simpa using hle
      next hne =>
        split
        next idx heq =>
          simp only [List.length_append, List.length_take]
          omega
        next =>
          split
          next hshort =>
            simp only [List.length_append]
            omega
          next hlong =>
            have hlen : (provider 1000 cursor untilSig).length = 1000 := by
              omega
            refine ih _ _ ?_ ?_
            · simp only [List.length_append, hlen]
              omega
            · simp only [List.length_append, hlen]
              omega
    next => exact hle

/-- C8: one sync run's signature fetch pages the provider in batches of
1000 and stops at an empty batch, a short batch, the stored last
signature, or the safety cap, so when the provider honors the 1000-entry
batch limit the ingested signature list never exceeds 5000 entries. -/
theorem c8_sync_signature_cap
    (provider : Nat → Option String → Option String → List SignatureInfo)
    (lastSignature : Option String)
    (hP : ∀ b, (provider 1000 b lastSignature).length ≤ 1000) :
    (syncFetchSignatures provider lastSignature).length ≤ 5000 := by
  exact fetchSignaturesLoop_le_5000 provider lastSignature hP _ [] none
    (by simp) (by simp)

/-- Witness for C8 with a provider returning a single short batch. -/
theorem c8_sync_signature_cap_witness :
    (syncFetchSignatures
      (fun _ _ _ => [{ signature := "s1" }, { signature := "s2" }])
      none).length ≤ 5000 :=
  c8_sync_signature_cap
    (fun _ _ _ => [{ signature := "s1" }, { signature := "s2" }]) none
    (fun _ => by simp)

/-! ## C1 — intermediate-token exclusion -/

/-- Keys of `qset m k v` are `k` or keys of `m`. -/
theorem mem_qset_key {m : QMap} {k : String} {v : ℚ} :
    ∀ q ∈ qset m k v, q.1 = k ∨ q.1 ∈ m.map Prod.fst := by
  induction m with
  | nil =>
    intro q hq
    simp only [qset, List.mem_singleton] at hq
    subst hq
    exact Or.inl rfl
  | cons p rest ih =>
    intro q hq
    simp only [qset] at hq
    split_ifs at hq with hpk
    · rcases List.mem_cons.1 hq with rfl | hq
      · exact Or.inl rfl
      · exact Or.inr (List.mem_map.2 ⟨q, List.mem_cons.2 (Or.inr hq), rfl⟩)
    · rcases List.mem_cons.1 hq with rfl | hq
      · exact Or.inr (List.mem_map.2 ⟨q, List.mem_cons.2 (Or.inl rfl), rfl⟩)
      · rcases ih q hq with h | h
        · exact Or.inl h
        · rcases List.mem_map.1 h with ⟨a, ha, hak⟩
          exact Or.inr (List.mem_map.2 ⟨a, List.mem_cons.2 (Or.inr ha), hak⟩)

/-- A fold whose step preserves a key property preserves it over a list. -/
theorem foldl_preserve_keys {α : Type} (P : String × ℚ → Prop)
    (step : QMap → α → QMap)
    (hstep : ∀ m a, (∀ q ∈ m, P q) → ∀ q ∈ step m a, P q) :
    ∀ (l : List α) (m : QMap), (∀ q ∈ m, P q) → ∀ q ∈ l.foldl step m, P q := by
  intro l
  induction l with
  | nil => intro m hm; simpa using hm
  | cons a rest ih => intro m hm; exact ih _ (hstep m a hm)

/-- `balanceTbcStep` never introduces a native/wrapped-SOL key. -/
theorem balanceTbcStep_keys {w : String} (m : QMap) (tbc : TokenBalanceChange)
    (hm : ∀ q ∈ m, isSOLOrWSol q.1 = false) :
    ∀ q ∈ balanceTbcStep w m tbc, isSOLOrWSol q.1 = false := by
  intro q hq
  simp only [balanceTbcStep] at hq
  split_ifs at hq with hwallet hsol
  · exact hm q hq
  · rcases mem_qset_key q hq with h | h
    · rw [h]
      simpa using hsol
    · rcases List.mem_map.1 h with ⟨a, ha, hak⟩
      rw [← hak]
      exact hm a ha
  · exact hm q hq

/-- Every mint keyed in `balanceTokenChanges` fails `isSOLOrWSol`: strategy
B filters out only native/wrapped SOL. -/
theorem balanceTokenChanges_keys (tx : HeliusEnhancedTransaction) (w : String) :
    ∀ q ∈ balanceTokenChanges tx w, isSOLOrWSol q.1 = false := by
  refine foldl_preserve_keys _ (balanceRowStep w) ?_ tx.accountData [] (by simp)
  intro m row hmm
  exact foldl_preserve_keys _ (balanceTbcStep w)
    (fun m2 tbc hm2 => balanceTbcStep_keys m2 tbc hm2)
    row.tokenBalanceChanges m hmm

/-- Target-side keys of `splitIntermediate` are never intermediate mints. -/
theorem splitIntermediate_target_keys :
    ∀ (m : QMap) q, q ∈ (splitIntermediate m).2 →
      INTERMEDIATE_TOKENS.contains q.1 = false := by
  intro m
  induction m with
  | nil => simp [splitIntermediate]
  | cons p rest ih =>
    intro q hq
    simp only [splitIntermediate] at hq
    split_ifs at hq with h1 h2
    · exact ih q hq
    · simp only at hq
      exact ih q hq
    · simp only at hq
      rcases List.mem_cons.1 hq with rfl | hq
      · simpa using h2
      · exact ih q hq

/-- Mints of case-A1 trades come from the target map. -/
theorem mint_transfersTradesWithSol {tx : HeliusEnhancedTransaction}
    {w : String} {solDelta : ℚ} {targets : QMap} {t : Trade}
    (h : t ∈ transfersTradesWithSol tx w solDelta targets) :
    ∃ p ∈ targets, t.tokenMint = p.1 := by
  simp only [transfersTradesWithSol] at h
  rcases List.mem_filterMap.1 h with ⟨p, hp, hf⟩
  refine ⟨p, hp, ?_⟩
  split_ifs at hf <;>
    first
      | (rw [← Option.some.inj hf]; rfl)
      | simp at hf

/-- Mints of case-A2 trades come from the target map. -/
theorem mint_transfersTradesViaIntermediate {tx : HeliusEnhancedTransaction}
    {w : String} {solDelta : ℚ} {inter targets : QMap} {t : Trade}
    (h : t ∈ transfersTradesViaIntermediate tx w solDelta inter targets) :
    ∃ p ∈ targets, t.tokenMint = p.1 := by
  simp only [transfersTradesViaIntermediate] at h
  rcases List.mem_filterMap.1 h with ⟨p, hp, hf⟩
  refine ⟨p, hp, ?_⟩
  split_ifs at hf <;>
    first
      | (rw [← Option.some.inj hf]; rfl)
      | simp at hf

/-- Mints of case-A3 trades come from the target map. -/
theorem mint_transfersTradesAirdrop {tx : HeliusEnhancedTransaction}
    {w : String} {targets : QMap} {t : Trade}
    (h : t ∈ transfersTradesAirdrop tx w targets) :
    ∃ p ∈ targets, t.tokenMint = p.1 := by
  simp only [transfersTradesAirdrop] at h
  rcases List.mem_filterMap.1 h with ⟨p, hp, hf⟩
  refine ⟨p, hp, ?_⟩
  split_ifs at hf <;>
    first
      | (rw [← Option.some.inj hf]; rfl)
      | simp at hf

/-- Strategy A never emits a trade whose mint is an intermediate token. -/
theorem parseFromTransfers_no_intermediate {tx : HeliusEnhancedTransaction}
    {w : String} {t : Trade} (h : t ∈ parseFromTransfers tx w) :
    INTERMEDIATE_TOKENS.contains t.tokenMint = false := by
  simp only [parseFromTransfers] at h
  split_ifs at h
  · rcases mint_transfersTradesWithSol h with ⟨p, hp, hmint⟩
    rw [hmint]
    exact splitIntermediate_target_keys _ p hp
  · rcases mint_transfersTradesViaIntermediate h with ⟨p, hp, hmint⟩
    rw [hmint]
    exact splitIntermediate_target_keys _ p hp
  · rcases mint_transfersTradesAirdrop h with ⟨p, hp, hmint⟩
    rw [hmint]
    exact splitIntermediate_target_keys _ p hp
  · simp at h

/-- Strategy B excludes exactly native/wrapped SOL mints. -/
theorem parseFromBalanceChanges_not_sol {tx : HeliusEnhancedTransaction}
    {w : String} {t : Trade} (h : t ∈ parseFromBalanceChanges tx w) :
    isSOLOrWSol t.tokenMint = false := by
  simp only [parseFromBalanceChanges] at h
  split at h
  · simp at h
  · rcases List.mem_filterMap.1 h with ⟨p, hp, hf⟩
    have hmint : t.tokenMint = p.1 := by
      split_ifs at hf <;>
        first
          | (rw [← Option.some.inj hf]; rfl)
          | simp at hf
    rw [hmint]
    exact balanceTokenChanges_keys tx w p hp

/-- Strategy C excludes exactly native/wrapped SOL mints. -/
theorem parseFromSwapEvent_not_sol {tx : HeliusEnhancedTransaction}
    {w : String} {t : Trade} (h : t ∈ parseFromSwapEvent tx w) :
    isSOLOrWSol t.tokenMint = false := by
  simp only [parseFromSwapEvent] at h
  split at h
  · simp at h
  · rcases List.mem_append.1 h with h2 | h2
    · simp only [swapEventBuys] at h2
      split at h2
      · simp at h2
      · split at h2
        · rcases List.mem_filterMap.1 h2 with ⟨leg, _, hf⟩
          split_ifs at hf with hsol hpos <;>
            first
              | (rw [← Option.some.inj hf]; simpa [createTrade] using hsol)
              | (rw [← hf]; simpa [createTrade] using hsol)
              | simp at hf
        · simp at h2
    · simp only [swapEventSells] at h2
      split at h2
      · simp at h2
      · split at h2
        · rcases List.mem_filterMap.1 h2 with ⟨leg, _, hf⟩
          split_ifs at hf with hsol hpos <;>
            first
              | (rw [← Option.some.inj hf]; simpa [createTrade] using hsol)
              | (rw [← hf]; simpa [createTrade] using hsol)
              | simp at hf
        · simp at h2

/-- C1 counterexample: a record with no transfers whose account data shows
a USDC balance change for the wallet falls through to strategy B, which
filters only native/wrapped SOL — `parseEnhancedTransaction` returns a
Trade whose `tokenMint` is USDC, an intermediate-set member, refuting the
claim that no strategy ever emits an intermediate mint. -/
theorem c1_intermediate_leak_cex :
    (parseEnhancedTransaction usdcBalanceTx ("walletW")).map Trade.tokenMint
      = [USDC_MINT] ∧
    INTERMEDIATE_TOKENS.contains USDC_MINT = true := by
  constructor
  · norm_num [parseEnhancedTransaction, parseFromTransfers,
      parseFromBalanceChanges, transferSolDelta, transferTokenDeltas,
      balanceSolChange, balanceTokenChanges, balanceRowStep, balanceTbcStep,
      splitIntermediate, qdel, qgetD, qget, qset, usdcBalanceTx,
      parseTokenAmount, isSOLOrWSol, NATIVE_SOL_MINT, WSOL_MINT,
      SYSTEM_PROGRAM_MINT, USDC_MINT, DUST_EPS, createTrade]
    all_goals norm_num [List.filterMap]
    all_goals decide
  · decide

/-- C1 (amended): only strategy A (the token-transfer ledger) excludes the
intermediate-token set from emitted trades; strategies B (account-data
balance diffs) and C (declared swap event) exclude only native/wrapped-SOL
mints, so an intermediate stablecoin mint can appear in their trades. -/
theorem c1_strategy_exclusions (tx : HeliusEnhancedTransaction) (w : String)
    (t : Trade) :
    (t ∈ parseFromTransfers tx w →
      INTERMEDIATE_TOKENS.contains t.tokenMint = false) ∧
    (t ∈ parseFromBalanceChanges tx w → isSOLOrWSol t.tokenMint = false) ∧
    (t ∈ parseFromSwapEvent tx w → isSOLOrWSol t.tokenMint = false) :=
  ⟨fun h => parseFromTransfers_no_intermediate h,
   fun h => parseFromBalanceChanges_not_sol h,
   fun h => parseFromSwapEvent_not_sol h⟩

/-- A plain airdrop record: one incoming token transfer for the wallet. -/
def airdropTx : HeliusEnhancedTransaction :=
  { signature := "sigA"
    timestamp := 50
    txType := ""
    source := ""
    transactionError := none
    nativeTransfers := []
    tokenTransfers :=
      [{ fromUserAccount := "faucet", toUserAccount := "walletW",
         tokenAmount := 5, mint := fixMint }]
    accountData := []
    swapEvent := none }

/-- Witness for C1 (amended): the airdrop record's strategy-A trade has a
non-intermediate mint, and the USDC balance-diff record's strategy-B trade
is (only) guaranteed not to be native/wrapped SOL. -/
theorem c1_strategy_exclusions_witness :
    INTERMEDIATE_TOKENS.contains
        (createTrade airdropTx ("walletW") .buy fixMint 5 0).tokenMint
      = false ∧
    isSOLOrWSol
        (createTrade usdcBalanceTx ("walletW") .buy USDC_MINT 5 0).tokenMint
      = false := by
  constructor
  · refine (c1_strategy_exclusions airdropTx ("walletW") _).1 ?_
    have hev : parseFromTransfers airdropTx ("walletW")
        = [createTrade airdropTx ("walletW") .buy fixMint 5 0] := by
      simp only [parseFromTransfers, transferSolDelta, transferTokenDeltas,
        transfersTradesAirdrop, splitIntermediate, qdel, qgetD, qget, qset,
        airdropTx, isSOLOrWSol, NATIVE_SOL_MINT, WSOL_MINT,
        SYSTEM_PROGRAM_MINT, fixMint, DUST_EPS, SOL_EPS,
        INTERMEDIATE_TOKENS, USDC_MINT, USDT_MINT, USDS_MINT, USD1_MINT,
        STSOL_MINT, MSOL_MINT, BSOL_MINT, JITOSOL_MINT, List.contains,
        List.filter, List.filterMap, List.foldl]
      all_goals norm_num
      all_goals simp
      all_goals norm_num
    rw [hev]
    simp
  · refine (c1_strategy_exclusions usdcBalanceTx ("walletW") _).2.1 ?_
    have hev : parseFromBalanceChanges usdcBalanceTx ("walletW")
        = [createTrade usdcBalanceTx ("walletW") .buy USDC_MINT 5 0] := by
      simp only [parseFromBalanceChanges, balanceSolChange,
        balanceTokenChanges, balanceRowStep, balanceTbcStep, qdel, qgetD,
        qget, qset, usdcBalanceTx, parseTokenAmount, isSOLOrWSol,
        NATIVE_SOL_MINT, WSOL_MINT, SYSTEM_PROGRAM_MINT, USDC_MINT,
        DUST_EPS, List.filter, List.filterMap, List.foldl]
      all_goals norm_num
      all_goals simp
      all_goals norm_num
    rw [hev]
    simp

/-! ## Grouping lemmas shared by the FIFO and summary claims -/

theorem sum_map_filter_not_filter (f : Trade → ℚ) (p : Trade → Bool) :
    ∀ l : List Trade,
      ((l.filter p).map f).sum + ((l.filter (fun a => !p a)).map f).sum
        = (l.map f).sum := by
  intro l
  induction l with
  | nil => simp
  | cons a rest ih =>
    cases hpa : p a with
    | true =>
      simp only [List.filter_cons, hpa, Bool.not_true, List.map_cons,
        List.sum_cons, if_true, Bool.false_eq_true, if_false]
      rw [add_assoc, ih]
    | false =>
      simp only [List.filter_cons, hpa, Bool.not_false, List.map_cons,
        List.sum_cons, if_true, Bool.false_eq_true, if_false]
      rw [add_comm (((List.filter p rest).map f).sum) _, add_assoc,
        add_comm (((List.filter (fun a => !p a) rest).map f).sum) _, ih]

theorem sum_map_filter_ite (f : Trade → ℚ) (p : Trade → Bool) :
    ∀ l : List Trade,
      ((l.filter p).map f).sum
        = (l.map (fun t => if p t then f t else 0)).sum := by
  intro l
  induction l with
  | nil => simp
  | cons a rest ih =>
    cases hpa : p a with
    | true => simp [List.filter_cons, hpa, ih]
    | false => simp [List.filter_cons, hpa, ih]

theorem groupByMint_mem_mint :
    ∀ ts g, g ∈ groupByMint ts → ∀ t, t ∈ g.2 → t.tokenMint = g.1 := by
  intro ts
  induction ts using groupByMint.induct with
  | case1 => simp [groupByMint]
  | case2 t rest ih =>
    intro g hg u hu
    simp only [groupByMint, List.mem_cons] at hg
    rcases hg with rfl | hg
    · rcases List.mem_cons.1 hu with rfl | hu
      · rfl
      · have := List.of_mem_filter hu
        simpa using this
    · exact ih g hg u hu

theorem groupByMint_key_mem :
    ∀ ts g, g ∈ groupByMint ts → ∃ t ∈ ts, t.tokenMint = g.1 := by
  intro ts
  induction ts using groupByMint.induct with
  | case1 => simp [groupByMint]
  | case2 t rest ih =>
    intro g hg
    simp only [groupByMint, List.mem_cons] at hg
    rcases hg with rfl | hg
    · exact ⟨t, by simp⟩
    · rcases ih g hg with ⟨u, hu, hmint⟩
      exact ⟨u, List.mem_cons.2 (Or.inr (List.mem_of_mem_filter hu)), hmint⟩

theorem groupByMint_complete :
    ∀ ts t, t ∈ ts → ∃ g ∈ groupByMint ts, g.1 = t.tokenMint := by
  intro ts
  induction ts using groupByMint.induct with
  | case1 => simp
  | case2 t rest ih =>
    intro u hu
    rcases List.mem_cons.1 hu with rfl | hu
    · refine ⟨(u.tokenMint,
        u :: rest.filter (fun v => decide (v.tokenMint = u.tokenMint))),
        ?_, rfl⟩
      simp [groupByMint]
    · by_cases hsame : u.tokenMint = t.tokenMint
      · refine ⟨(t.tokenMint,
          t :: rest.filter (fun v => decide (v.tokenMint = t.tokenMint))),
          ?_, hsame.symm⟩
        simp [groupByMint]
      · have humem : u ∈ rest.filter
            (fun v => !decide (v.tokenMint = t.tokenMint)) :=
          List.mem_filter.2 ⟨hu, by simpa using hsame⟩
        rcases ih u humem with ⟨g, hg, hkey⟩
        refine ⟨g, ?_, hkey⟩
        simp only [groupByMint, List.mem_cons]
        exact Or.inr hg

theorem groupByMint_group_filter :
    ∀ ts g, g ∈ groupByMint ts →
      g.2 = ts.filter (fun u => decide (u.tokenMint = g.1)) := by
  intro ts
  induction ts using groupByMint.induct with
  | case1 => simp [groupByMint]
  | case2 t rest ih =>
    intro g hg
    simp only [groupByMint, List.mem_cons] at hg
    rcases hg with rfl | hg
    · simp [List.filter_cons]
    · have hkey : ¬g.1 = t.tokenMint := by
        rcases groupByMint_key_mem _ g hg with ⟨u, hu, hmint⟩
        have hne := List.of_mem_filter hu
        simp only [Bool.not_eq_eq_eq_not, Bool.not_true,
          decide_eq_false_iff_not] at hne
        rw [← hmint]
        exact fun hx => hne hx
      have hhead : (decide (t.tokenMint = g.1)) = false := by
        refine decide_eq_false ?_
        intro hcontra
        exact hkey hcontra.symm
      rw [ih g hg, List.filter_filter, List.filter_cons, hhead]
      simp only [Bool.false_eq_true, if_false]
      refine List.filter_congr ?_
      intro u _
      by_cases hum : u.tokenMint = g.1
      · have hut : ¬u.tokenMint = t.tokenMint := by
          rw [hum]; exact fun hx => hkey hx
        simp [hum, hut]
        exact hkey
      · simp [hum]

theorem groupByMint_sum (f : Trade → ℚ) :
    ∀ ts, ((groupByMint ts).map (fun g => (g.2.map f).sum)).sum
      = (ts.map f).sum := by
  intro ts
  induction ts using groupByMint.induct with
  | case1 => simp [groupByMint]
  | case2 t rest ih =>
    have hpart := sum_map_filter_not_filter f
      (fun u => decide (u.tokenMint = t.tokenMint)) rest
    simp only [groupByMint, List.map_cons, List.sum_cons, List.map, ih]
    rw [← hpart]
    ring

/-! ## C4/C5 — period summary against the lifetime cost basis -/

/-- Spec wording, for comparison with the code: the contribution of one
sell is `sell.sol_amount − sell.token_amount × lifetime average buy
price`. -/
def specContribution (positions : List Position) (t : Trade) : ℚ :=
  t.solAmount - t.tokenAmount * lookupAvgPrice positions t.tokenMint

/-- Spec wording: the in-period sells of one mint group. -/
def specGroupSells (g : String × List Trade) : List Trade :=
  g.2.filter (fun t => decide (t.type = .sell))

/-- Spec wording: a mint's period PnL is the sum of its sells'
contributions. -/
def specGroupPnl (positions : List Position) (g : String × List Trade) : ℚ :=
  ((specGroupSells g).map (specContribution positions)).sum

/-- Spec wording: a mint's period win count is its number of in-period
sells with positive contribution. -/
def specGroupWins (positions : List Position) (g : String × List Trade) :
    Nat :=
  ((specGroupSells g).filter
    (fun t => decide (0 < specContribution positions t))).length

/-- The period-sell fold computes the contribution sum and the count of
positive contributions. -/
theorem periodSellStats_spec (avg : ℚ) (sells : List Trade) :
    periodSellStats avg sells
      = ((sells.map (fun t => t.solAmount - t.tokenAmount * avg)).sum,
         (sells.filter
           (fun t => decide (0 < t.solAmount - t.tokenAmount * avg))).length)
    := by
  have haux : ∀ (l : List Trade) (acc : ℚ × Nat),
      l.foldl (fun acc sell =>
        let costBasisForSell := sell.tokenAmount * avg
        let profit := sell.solAmount - costBasisForSell
        (acc.1 + profit, acc.2 + (if 0 < profit then 1 else 0))) acc
      = (acc.1 + (l.map (fun t => t.solAmount - t.tokenAmount * avg)).sum,
         acc.2 + (l.filter
           (fun t => decide (0 < t.solAmount - t.tokenAmount * avg))).length)
      := by
    intro l
    induction l with
    | nil => intro acc; simp
    | cons a rest ih =>
      intro acc
      simp only [List.foldl_cons, ih, List.map_cons, List.sum_cons,
        List.filter_cons]
      rw [Prod.ext_iff]
      constructor
      · dsimp only
        ring
      · by_cases hc : 0 < a.solAmount - a.tokenAmount * avg
        · simp [hc]
          all_goals omega
        · simp [hc]
          all_goals omega
  rw [show periodSellStats avg sells
      = sells.foldl (fun acc sell =>
          let costBasisForSell := sell.tokenAmount * avg
          let profit := sell.solAmount - costBasisForSell
          (acc.1 + profit, acc.2 + (if 0 < profit then 1 else 0))) (0, 0)
    from rfl, haux]
  simp

/-- Every trade of the input has a lifetime position row to be found. -/
theorem find_position_of_mem (w : String) (ts : List Trade) (t : Trade)
    (ht : t ∈ ts) :
    ∃ fp, (calculateFIFOPnL w ts).positions.find?
      (fun p => decide (p.tokenMint = t.tokenMint)) = some fp := by
  rcases groupByMint_complete ts t ht with ⟨g, hg, hkey⟩
  have hmem : (processMint w g.1 g.2).position
      ∈ (calculateFIFOPnL w ts).positions := by
    simp only [calculateFIFOPnL, List.map_map, List.mem_map]
    exact ⟨g, hg, rfl⟩
  have hsome : ((calculateFIFOPnL w ts).positions.find?
      (fun p => decide (p.tokenMint = t.tokenMint))).isSome := by
    rw [List.find?_isSome]
    refine ⟨_, hmem, ?_⟩
    exact decide_eq_true hkey
  rcases Option.isSome_iff_exists.1 hsome with ⟨fp, hfp⟩
  exact ⟨fp, hfp⟩

/-- Trades in the reporting window are among the input trades. -/
theorem tradesInPeriodOf_subset (allTrades : List Trade) (tf : Timeframe)
    (now : Int) : ∀ t ∈ tradesInPeriodOf allTrades tf now, t ∈ allTrades := by
  intro t ht
  simp only [tradesInPeriodOf] at ht
  split at ht
  · exact List.mem_of_mem_filter ht
  · exact ht

/-- One mint group's period PnL, win and loss contributions, expressed
through the spec-side contribution formulas. -/
theorem periodGroupResult_spec (w : String) (positions : List Position)
    (g : String × List Trade)
    (hfp : ∃ fp, positions.find?
      (fun p => decide (p.tokenMint = g.1)) = some fp)
    (hmint : ∀ t ∈ g.2, t.tokenMint = g.1) :
    (periodGroupResult w positions g).1 = specGroupPnl positions g ∧
    (periodGroupResult w positions g).2.1
      = (if 0 < specGroupPnl positions g then specGroupWins positions g
         else 0) ∧
    (periodGroupResult w positions g).2.2.1
      = (if specGroupPnl positions g < 0 then
          (specGroupSells g).length - specGroupWins positions g else 0) := by
  rcases hfp with ⟨fp, hfp⟩
  have hcontrib : ∀ t ∈ specGroupSells g,
      t.solAmount - t.tokenAmount * fp.averageBuyPrice
        = specContribution positions t := by
    intro t ht
    have htg : t.tokenMint = g.1 := hmint t (List.mem_of_mem_filter ht)
    simp [specContribution, lookupAvgPrice, htg, hfp]
  have hpnl : (periodSellStats fp.averageBuyPrice (specGroupSells g)).1
      = specGroupPnl positions g := by
    rw [periodSellStats_spec]
    simp only [specGroupPnl]
    exact congrArg List.sum (List.map_congr_left hcontrib)
  have hwins : (periodSellStats fp.averageBuyPrice (specGroupSells g)).2
      = specGroupWins positions g := by
    rw [periodSellStats_spec]
    simp only [specGroupWins]
    refine congrArg List.length (List.filter_congr ?_)
    intro t ht
    rw [hcontrib t ht]
  refine ⟨?_, ?_, ?_⟩
  · simp only [periodGroupResult, hfp]
    exact hpnl
  · simp only [periodGroupResult, hfp]
    rw [show (List.filter (fun t => decide (t.type = TradeType.sell)) g.2)
        = specGroupSells g from rfl, hpnl, hwins]
  · simp only [periodGroupResult, hfp]
    rw [show (List.filter (fun t => decide (t.type = TradeType.sell)) g.2)
        = specGroupSells g from rfl, hpnl, hwins]

def cbBuy : Trade :=
  { id := "cb-buy-m", walletAddress := "W", signature := "cb", timestamp := 0,
    type := .buy, tokenMint := fixMint, tokenSymbol := none,
    tokenAmount := 1, solAmount := 1, pricePerToken := 1, dex := "D" }

def cbSell : Trade :=
  { id := "cs-sell-m", walletAddress := "W", signature := "cs",
    timestamp := 1000000, type := .sell, tokenMint := fixMint,
    tokenSymbol := none, tokenAmount := 1, solAmount := 2, pricePerToken := 2,
    dex := "D" }

def mixBuy : Trade :=
  { id := "mb-buy-m", walletAddress := "W", signature := "mb", timestamp := 0,
    type := .buy, tokenMint := fixMint, tokenSymbol := none,
    tokenAmount := 1, solAmount := 10, pricePerToken := 10, dex := "D" }

def mixSellWin : Trade :=
  { id := "mw-sell-m", walletAddress := "W", signature := "mw", timestamp := 1,
    type := .sell, tokenMint := fixMint, tokenSymbol := none,
    tokenAmount := 1/10, solAmount := 2, pricePerToken := 20, dex := "D" }

def mixSellLoss : Trade :=
  { id := "ml-sell-m", walletAddress := "W", signature := "ml", timestamp := 2,
    type := .sell, tokenMint := fixMint, tokenSymbol := none,
    tokenAmount := 9/10, solAmount := 1, pricePerToken := 10/9, dex := "D" }

def mixTrades : List Trade := [mixBuy, mixSellWin, mixSellLoss]


/-- Eta-expanded form of `specContribution`, for concrete evaluation. -/
theorem specContribution_eta (positions : List Position) :
    specContribution positions
      = fun t => t.solAmount - t.tokenAmount *
          lookupAvgPrice positions t.tokenMint := rfl

/-- Finding the lifetime position row for a period group's mint. -/
theorem group_find_position (w : String) (allTrades : List Trade)
    (tf : Timeframe) (now : Int) (g : String × List Trade)
    (hg : g ∈ groupByMint (tradesInPeriodOf allTrades tf now)) :
    ∃ fp, (calculateFIFOPnL w allTrades).positions.find?
      (fun p => decide (p.tokenMint = g.1)) = some fp := by
  rcases groupByMint_key_mem _ g hg with ⟨t, htP, hkey⟩
  have htA : t ∈ allTrades := tradesInPeriodOf_subset _ _ _ t htP
  rcases find_position_of_mem w allTrades t htA with ⟨fp, hfp⟩
  rw [← hkey]
  exact ⟨fp, hfp⟩

/-- The summary's total realized PnL equals the flat sum of in-period
sell contributions at lifetime average prices. -/
theorem summary_pnl_flat (w : String) (allTrades : List Trade)
    (tf : Timeframe) (now : Int) :
    (generatePnLSummary w allTrades tf now).totalRealizedPnL
      = (((tradesInPeriodOf allTrades tf now).filter
          (fun t => decide (t.type = .sell))).map
          (specContribution (calculateFIFOPnL w allTrades).positions)).sum
    := by
  have hunfold : (generatePnLSummary w allTrades tf now).totalRealizedPnL
      = (((groupByMint (tradesInPeriodOf allTrades tf now)).map
          (periodGroupResult w
            (calculateFIFOPnL w allTrades).positions)).map
        (fun r => r.1)).sum := rfl
  rw [hunfold, List.map_map]
  have hgroups : ∀ g ∈ groupByMint (tradesInPeriodOf allTrades tf now),
      ((fun r => r.1) ∘
          periodGroupResult w (calculateFIFOPnL w allTrades).positions) g
        = (fun g2 => (g2.2.map (fun t =>
            if decide (t.type = .sell) then
              specContribution (calculateFIFOPnL w allTrades).positions t
            else 0)).sum) g := by
    intro g hg
    have hfp := group_find_position w allTrades tf now g hg
    have hmint := groupByMint_mem_mint _ g hg
    have hspec := (periodGroupResult_spec w
      (calculateFIFOPnL w allTrades).positions g hfp
      (fun t ht => hmint t ht)).1
    simp only [Function.comp]
    rw [hspec]
    simp only [specGroupPnl, specGroupSells]
    exact sum_map_filter_ite _ _ g.2
  rw [List.map_congr_left hgroups, groupByMint_sum]
  exact (sum_map_filter_ite _ _ _).symm

/-- The summary's win and loss counters, per mint group, gated on the sign
of the group's period PnL. -/
theorem summary_win_loss_gated (w : String) (allTrades : List Trade)
    (tf : Timeframe) (now : Int) :
    (generatePnLSummary w allTrades tf now).winCount
      = ((groupByMint (tradesInPeriodOf allTrades tf now)).map
          (fun g => if 0 < specGroupPnl
              (calculateFIFOPnL w allTrades).positions g then
            specGroupWins (calculateFIFOPnL w allTrades).positions g
          else 0)).sum ∧
    (generatePnLSummary w allTrades tf now).lossCount
      = ((groupByMint (tradesInPeriodOf allTrades tf now)).map
          (fun g => if specGroupPnl
              (calculateFIFOPnL w allTrades).positions g < 0 then
            (specGroupSells g).length -
              specGroupWins (calculateFIFOPnL w allTrades).positions g
          else 0)).sum := by
  constructor
  · have hunfold : (generatePnLSummary w allTrades tf now).winCount
        = (((groupByMint (tradesInPeriodOf allTrades tf now)).map
            (periodGroupResult w
              (calculateFIFOPnL w allTrades).positions)).map
          (fun r => r.2.1)).sum := rfl
    rw [hunfold, List.map_map]
    refine congrArg List.sum (List.map_congr_left ?_)
    intro g hg
    have hfp := group_find_position w allTrades tf now g hg
    have hmint := groupByMint_mem_mint _ g hg
    exact (periodGroupResult_spec w _ g hfp (fun t ht => hmint t ht)).2.1
  · have hunfold : (generatePnLSummary w allTrades tf now).lossCount
        = (((groupByMint (tradesInPeriodOf allTrades tf now)).map
            (periodGroupResult w
              (calculateFIFOPnL w allTrades).positions)).map
          (fun r => r.2.2.1)).sum := rfl
    rw [hunfold, List.map_map]
    refine congrArg List.sum (List.map_congr_left ?_)
    intro g hg
    have hfp := group_find_position w allTrades tf now g hg
    have hmint := groupByMint_mem_mint _ g hg
    exact (periodGroupResult_spec w _ g hfp (fun t ht => hmint t ht)).2.2

/-- C4: the period summary's total realized PnL is exactly the sum, over
the in-period sells, of `sell.solAmount − sell.tokenAmount × (lifetime
average buy price of the sell's mint)`; in particular, for a buy of 1
token for 1 SOL before the 24h window sold inside the window for 2 SOL,
the 24h summary reports total realized PnL 1. -/
theorem c4_period_pnl_lifetime_basis (w : String) (allTrades : List Trade)
    (tf : Timeframe) (now : Int) :
    (generatePnLSummary w allTrades tf now).totalRealizedPnL
      = (((tradesInPeriodOf allTrades tf now).filter
          (fun t => decide (t.type = .sell))).map
          (specContribution (calculateFIFOPnL w allTrades).positions)).sum ∧
    (generatePnLSummary ("W") [cbBuy, cbSell] .h24 1000000).totalRealizedPnL
      = 1 := by
  refine ⟨summary_pnl_flat w allTrades tf now, ?_⟩
  rw [summary_pnl_flat]
  simp only [tradesInPeriodOf, TIMEFRAME_SECONDS, periodStartOf,
    specContribution, lookupAvgPrice, calculateFIFOPnL, groupByMint,
    processMint, sortByTs, insertByTs, fifoStep, fifoInit, matchLots,
    firstTs, lastTs, cbBuy, cbSell, fixMint, decide_tt_bb, decide_tt_bs,
    decide_tt_sb, decide_tt_ss, List.filter, List.filterMap, List.foldl,
    List.map, List.find?, List.head?]
  all_goals try norm_num [tradesInPeriodOf, TIMEFRAME_SECONDS, periodStartOf,
    specContribution, lookupAvgPrice, calculateFIFOPnL, groupByMint,
    processMint, sortByTs, insertByTs, fifoStep, fifoInit, matchLots,
    firstTs, lastTs, cbBuy, cbSell, fixMint, decide_tt_bb, decide_tt_bs,
    decide_tt_sb, decide_tt_ss, List.filter, List.filterMap, List.foldl,
    List.map, List.find?, List.head?]
  all_goals try simp [tradesInPeriodOf, TIMEFRAME_SECONDS, periodStartOf,
    specContribution, lookupAvgPrice, calculateFIFOPnL, groupByMint,
    processMint, sortByTs, insertByTs, fifoStep, fifoInit, matchLots,
    firstTs, lastTs, cbBuy, cbSell, fixMint, decide_tt_bb, decide_tt_bs,
    decide_tt_sb, decide_tt_ss, List.filter, List.filterMap, List.foldl,
    List.map, List.find?, List.head?]
  all_goals try norm_num [tradesInPeriodOf, TIMEFRAME_SECONDS, periodStartOf,
    specContribution, lookupAvgPrice, calculateFIFOPnL, groupByMint,
    processMint, sortByTs, insertByTs, fifoStep, fifoInit, matchLots,
    firstTs, lastTs, cbBuy, cbSell, fixMint, decide_tt_bb, decide_tt_bs,
    decide_tt_sb, decide_tt_ss, List.filter, List.filterMap, List.foldl,
    List.map, List.find?, List.head?]
  all_goals try simp [tradesInPeriodOf, TIMEFRAME_SECONDS, periodStartOf,
    specContribution, lookupAvgPrice, calculateFIFOPnL, groupByMint,
    processMint, sortByTs, insertByTs, fifoStep, fifoInit, matchLots,
    firstTs, lastTs, cbBuy, cbSell, fixMint, decide_tt_bb, decide_tt_bs,
    decide_tt_sb, decide_tt_ss, List.filter, List.filterMap, List.foldl,
    List.map, List.find?, List.head?]
  all_goals try norm_num [tradesInPeriodOf, TIMEFRAME_SECONDS, periodStartOf,
    specContribution, lookupAvgPrice, calculateFIFOPnL, groupByMint,
    processMint, sortByTs, insertByTs, fifoStep, fifoInit, matchLots,
    firstTs, lastTs, cbBuy, cbSell, fixMint, decide_tt_bb, decide_tt_bs,
    decide_tt_sb, decide_tt_ss, List.filter, List.filterMap, List.foldl,
    List.map, List.find?, List.head?]
  all_goals try norm_num

/-- C5 counterexample: in the mixed scenario (buy 1 token at average price
10, one winning sell with contribution +1, one losing sell with
contribution −8, total period PnL −7), the summary's `winCount` is 0 even
though exactly one in-period sell has a positive contribution — the win
counter is gated on the sign of the token's total period PnL, refuting
the claimed independence. -/
theorem c5_win_gating_cex :
    (generatePnLSummary ("W") mixTrades .all 10).winCount = 0 ∧
    (((tradesInPeriodOf mixTrades .all 10).filter
        (fun t => decide (t.type = .sell))).filter
      (fun t => decide (0 < specContribution
        (calculateFIFOPnL ("W") mixTrades).positions t))).length = 1 ∧
    (generatePnLSummary ("W") mixTrades .all 10).winCount ≠
      (((tradesInPeriodOf mixTrades .all 10).filter
          (fun t => decide (t.type = .sell))).filter
        (fun t => decide (0 < specContribution
          (calculateFIFOPnL ("W") mixTrades).positions t))).length := by
  have h1 : (generatePnLSummary ("W") mixTrades .all 10).winCount = 0 := by
    rw [(summary_win_loss_gated ("W") mixTrades .all 10).1]
    simp only [tradesInPeriodOf, TIMEFRAME_SECONDS, periodStartOf,
      specGroupPnl, specGroupWins, specGroupSells, specContribution_eta,
      lookupAvgPrice, calculateFIFOPnL, groupByMint, processMint, sortByTs,
      insertByTs, fifoStep, fifoInit, matchLots, firstTs, lastTs, mixTrades,
      mixBuy, mixSellWin, mixSellLoss, fixMint, decide_tt_bb, decide_tt_bs,
      decide_tt_sb, decide_tt_ss, List.filter, List.filterMap, List.foldl,
      List.map, List.find?, List.head?]
    all_goals try norm_num [tradesInPeriodOf, TIMEFRAME_SECONDS, periodStartOf,
      specGroupPnl, specGroupWins, specGroupSells, specContribution_eta,
      lookupAvgPrice, calculateFIFOPnL, groupByMint, processMint, sortByTs,
      insertByTs, fifoStep, fifoInit, matchLots, firstTs, lastTs, mixTrades,
      mixBuy, mixSellWin, mixSellLoss, fixMint, decide_tt_bb, decide_tt_bs,
      decide_tt_sb, decide_tt_ss, List.filter, List.filterMap, List.foldl,
      List.map, List.find?, List.head?]
    all_goals try simp [tradesInPeriodOf, TIMEFRAME_SECONDS, periodStartOf,
      specGroupPnl, specGroupWins, specGroupSells, specContribution_eta,
      lookupAvgPrice, calculateFIFOPnL, groupByMint, processMint, sortByTs,
      insertByTs, fifoStep, fifoInit, matchLots, firstTs, lastTs, mixTrades,
      mixBuy, mixSellWin, mixSellLoss, fixMint, decide_tt_bb, decide_tt_bs,
      decide_tt_sb, decide_tt_ss, List.filter, List.filterMap, List.foldl,
      List.map, List.find?, List.head?]
    all_goals try norm_num [tradesInPeriodOf, TIMEFRAME_SECONDS, periodStartOf,
      specGroupPnl, specGroupWins, specGroupSells, specContribution_eta,
      lookupAvgPrice, calculateFIFOPnL, groupByMint, processMint, sortByTs,
      insertByTs, fifoStep, fifoInit, matchLots, firstTs, lastTs, mixTrades,
      mixBuy, mixSellWin, mixSellLoss, fixMint, decide_tt_bb, decide_tt_bs,
      decide_tt_sb, decide_tt_ss, List.filter, List.filterMap, List.foldl,
      List.map, List.find?, List.head?]
    all_goals try simp [tradesInPeriodOf, TIMEFRAME_SECONDS, periodStartOf,
      specGroupPnl, specGroupWins, specGroupSells, specContribution_eta,
      lookupAvgPrice, calculateFIFOPnL, groupByMint, processMint, sortByTs,
      insertByTs, fifoStep, fifoInit, matchLots, firstTs, lastTs, mixTrades,
      mixBuy, mixSellWin, mixSellLoss, fixMint, decide_tt_bb, decide_tt_bs,
      decide_tt_sb, decide_tt_ss, List.filter, List.filterMap, List.foldl,
      List.map, List.find?, List.head?]
    all_goals try norm_num [tradesInPeriodOf, TIMEFRAME_SECONDS, periodStartOf,
      specGroupPnl, specGroupWins, specGroupSells, specContribution_eta,
      lookupAvgPrice, calculateFIFOPnL, groupByMint, processMint, sortByTs,
      insertByTs, fifoStep, fifoInit, matchLots, firstTs, lastTs, mixTrades,
      mixBuy, mixSellWin, mixSellLoss, fixMint, decide_tt_bb, decide_tt_bs,
      decide_tt_sb, decide_tt_ss, List.filter, List.filterMap, List.foldl,
      List.map, List.find?, List.head?]
    all_goals try norm_num
  have h2 : (((tradesInPeriodOf mixTrades .all 10).filter
      (fun t => decide (t.type = .sell))).filter
      (fun t => decide (0 < specContribution
        (calculateFIFOPnL ("W") mixTrades).positions t))).length = 1 := by
    simp only [tradesInPeriodOf, TIMEFRAME_SECONDS, specContribution,
      lookupAvgPrice, calculateFIFOPnL, groupByMint, processMint, sortByTs,
      insertByTs, fifoStep, fifoInit, matchLots, firstTs, lastTs, mixTrades,
      mixBuy, mixSellWin, mixSellLoss, fixMint, decide_tt_bb, decide_tt_bs,
      decide_tt_sb, decide_tt_ss, List.filter, List.filterMap, List.foldl,
      List.map, List.find?, List.head?]
    all_goals try norm_num [tradesInPeriodOf, TIMEFRAME_SECONDS, specContribution,
      lookupAvgPrice, calculateFIFOPnL, groupByMint, processMint, sortByTs,
      insertByTs, fifoStep, fifoInit, matchLots, firstTs, lastTs, mixTrades,
      mixBuy, mixSellWin, mixSellLoss, fixMint, decide_tt_bb, decide_tt_bs,
      decide_tt_sb, decide_tt_ss, List.filter, List.filterMap, List.foldl,
      List.map, List.find?, List.head?]
    all_goals try simp [tradesInPeriodOf, TIMEFRAME_SECONDS, specContribution,
      lookupAvgPrice, calculateFIFOPnL, groupByMint, processMint, sortByTs,
      insertByTs, fifoStep, fifoInit, matchLots, firstTs, lastTs, mixTrades,
      mixBuy, mixSellWin, mixSellLoss, fixMint, decide_tt_bb, decide_tt_bs,
      decide_tt_sb, decide_tt_ss, List.filter, List.filterMap, List.foldl,
      List.map, List.find?, List.head?]
    all_goals try norm_num [tradesInPeriodOf, TIMEFRAME_SECONDS, specContribution,
      lookupAvgPrice, calculateFIFOPnL, groupByMint, processMint, sortByTs,
      insertByTs, fifoStep, fifoInit, matchLots, firstTs, lastTs, mixTrades,
      mixBuy, mixSellWin, mixSellLoss, fixMint, decide_tt_bb, decide_tt_bs,
      decide_tt_sb, decide_tt_ss, List.filter, List.filterMap, List.foldl,
      List.map, List.find?, List.head?]
    all_goals try simp [tradesInPeriodOf, TIMEFRAME_SECONDS, specContribution,
      lookupAvgPrice, calculateFIFOPnL, groupByMint, processMint, sortByTs,
      insertByTs, fifoStep, fifoInit, matchLots, firstTs, lastTs, mixTrades,
      mixBuy, mixSellWin, mixSellLoss, fixMint, decide_tt_bb, decide_tt_bs,
      decide_tt_sb, decide_tt_ss, List.filter, List.filterMap, List.foldl,
      List.map, List.find?, List.head?]
    all_goals try norm_num [tradesInPeriodOf, TIMEFRAME_SECONDS, specContribution,
      lookupAvgPrice, calculateFIFOPnL, groupByMint, processMint, sortByTs,
      insertByTs, fifoStep, fifoInit, matchLots, firstTs, lastTs, mixTrades,
      mixBuy, mixSellWin, mixSellLoss, fixMint, decide_tt_bb, decide_tt_bs,
      decide_tt_sb, decide_tt_ss, List.filter, List.filterMap, List.foldl,
      List.map, List.find?, List.head?]
    all_goals try norm_num
  refine ⟨h1, h2, ?_⟩
  rw [h1, h2]
  decide

/-- C5 (amended): the summary's `winCount` is the sum, over mints whose
total period PnL is positive, of that mint's count of in-period sells
with positive contribution (at lifetime average prices); `lossCount` is
the sum, over mints whose total period PnL is negative, of that mint's
in-period sell count minus its positive-contribution count.  Mints whose
period PnL is zero contribute to neither counter, so the counts are not
independent of the sign of the token's total period PnL. -/
theorem c5_win_loss_gating (w : String) (allTrades : List Trade)
    (tf : Timeframe) (now : Int) :
    (generatePnLSummary w allTrades tf now).winCount
      = ((groupByMint (tradesInPeriodOf allTrades tf now)).map
          (fun g => if 0 < specGroupPnl
              (calculateFIFOPnL w allTrades).positions g then
            specGroupWins (calculateFIFOPnL w allTrades).positions g
          else 0)).sum ∧
    (generatePnLSummary w allTrades tf now).lossCount
      = ((groupByMint (tradesInPeriodOf allTrades tf now)).map
          (fun g => if specGroupPnl
              (calculateFIFOPnL w allTrades).positions g < 0 then
            (specGroupSells g).length -
              specGroupWins (calculateFIFOPnL w allTrades).positions g
          else 0)).sum :=
  summary_win_loss_gated w allTrades tf now

/-! ## C3 — FIFO conservation of open lots -/

/-- Sum of remaining amounts over a cons cell. -/
theorem sumRem_cons (l : Lot) (ls : List Lot) :
    sumRem (l :: ls) = l.remaining + sumRem ls := by
  simp [sumRem]

/-- Lots with nonnegative remainders have a nonnegative total. -/
theorem sumRem_nonneg {lots : List Lot}
    (h : ∀ l ∈ lots, 0 ≤ l.remaining) : 0 ≤ sumRem lots := by
  induction lots with
  | nil => simp [sumRem]
  | cons l rest ih =>
    rw [sumRem_cons]
    have h1 := h l (by simp)
    have h2 := ih (fun x hx => h x (by simp [hx]))
    linarith

/-- Membership after a stable insert. -/
theorem mem_insertByTs {x t : Trade} :
    ∀ {l : List Trade}, x ∈ insertByTs t l → x = t ∨ x ∈ l := by
  intro l
  induction l with
  | nil => intro hx; simpa [insertByTs] using hx
  | cons u us ih =>
    intro hx
    simp only [insertByTs] at hx
    by_cases hc : t.timestamp ≤ u.timestamp
    · rw [if_pos hc] at hx
      rcases List.mem_cons.1 hx with hx | hx
      · exact Or.inl hx
      · exact Or.inr hx
    · rw [if_neg hc] at hx
      rcases List.mem_cons.1 hx with hx | hx
      · exact Or.inr (by simp [hx])
      · rcases ih hx with hx2 | hx2
        · exact Or.inl hx2
        · exact Or.inr (by simp [hx2])

/-- Sorting by timestamp preserves membership (one direction). -/
theorem mem_of_mem_sortByTs {x : Trade} :
    ∀ {l : List Trade}, x ∈ sortByTs l → x ∈ l := by
  intro l
  induction l with
  | nil => intro hx; simpa [sortByTs] using hx
  | cons t rest ih =>
    intro hx
    simp only [sortByTs] at hx
    rcases mem_insertByTs hx with rfl | hx2
    · simp
    · simp [ih hx2]

/-- `matchLots` consumes `min(sellRemaining, available)`: the unmatched
remainder is the shortfall, the queue shrinks by the matched amount, and
remainders stay nonnegative. -/
theorem matchLots_spec :
    ∀ (lots : List Lot) (r : ℚ), 0 ≤ r → (∀ l ∈ lots, 0 ≤ l.remaining) →
      (matchLots lots r).2.2 = max (r - sumRem lots) 0 ∧
      sumRem (matchLots lots r).1 = max (sumRem lots - r) 0 ∧
      (∀ l ∈ (matchLots lots r).1, 0 ≤ l.remaining) := by
  intro lots
  induction lots with
  | nil =>
    intro r hr _
    refine ⟨?_, ?_, ?_⟩
    · simp only [matchLots, sumRem, List.map_nil, List.sum_nil, sub_zero]
      rw [max_eq_left hr]
    · simp only [matchLots, sumRem, List.map_nil, List.sum_nil, zero_sub]
      rw [max_eq_right (by linarith)]
    · simp [matchLots]
  | cons lot rest ih =>
    intro r hr hlots
    have hlot : 0 ≤ lot.remaining := hlots lot (by simp)
    have hrest : ∀ l ∈ rest, 0 ≤ l.remaining :=
      fun l hl => hlots l (by simp [hl])
    have hs : 0 ≤ sumRem (lot :: rest) := sumRem_nonneg hlots
    by_cases hr0 : r ≤ 0
    · have hreq : r = 0 := le_antisymm hr0 hr
      subst hreq
      simp only [matchLots, if_pos le_rfl]
      refine ⟨?_, ?_, hlots⟩
      · rw [max_eq_right (by linarith)]
      · rw [max_eq_left (by linarith), sub_zero]
    · simp only [matchLots, if_neg hr0]
      by_cases hlr : lot.remaining ≤ 0
      · have hl0 : lot.remaining = 0 := le_antisymm hlr hlot
        simp only [if_pos hlr]
        obtain ⟨h1, h2, h3⟩ := ih r hr hrest
        refine ⟨?_, ?_, ?_⟩
        · simpa [sumRem_cons, hl0] using h1
        · rw [sumRem_cons, sumRem_cons, hl0, h2]
          ring_nf
        · intro l hl
          rcases List.mem_cons.1 hl with rfl | hl
          · exact hlot
          · exact h3 l hl
      · simp only [if_neg hlr]
        have hm0 : 0 ≤ r - min lot.remaining r := by
          have := min_le_right lot.remaining r
          linarith
        obtain ⟨h1, h2, h3⟩ := ih (r - min lot.remaining r) hm0 hrest
        have hsrest : 0 ≤ sumRem rest := sumRem_nonneg hrest
        refine ⟨?_, ?_, ?_⟩
        · rw [h1, sumRem_cons]
          rcases le_total lot.remaining r with hcase | hcase
          · rw [min_eq_left hcase]
            congr 1
            ring
          · rw [min_eq_right hcase]
            rw [max_eq_right (by linarith), max_eq_right (by linarith)]
        · rw [sumRem_cons, h2, sumRem_cons]
          rcases le_total lot.remaining r with hcase | hcase
          · rw [min_eq_left hcase]
            rcases le_total (sumRem rest) (r - lot.remaining) with hd | hd
            · rw [max_eq_right (by linarith), max_eq_right (by linarith)]
              ring
            · rw [max_eq_left (by linarith), max_eq_left (by linarith)]
              ring
          · rw [min_eq_right hcase]
            rw [max_eq_left (by linarith), max_eq_left (by linarith)]
            ring
        · intro l hl
          rcases List.mem_cons.1 hl with rfl | hl
          · simp only
            have := min_le_left lot.remaining r
            linarith
          · exact h3 l hl

/-- Spec-side hypothesis for the amended C3: in the sorted per-mint trade
stream, every buy happens while cumulative sold ≤ cumulative bought (no
buy follows an oversold state). -/
def coveredB (b s : ℚ) : List Trade → Bool
  | [] => true
  | t :: ts =>
    match t.type with
    | .buy => decide (s ≤ b) && coveredB (b + t.tokenAmount) s ts
    | .sell => coveredB b (s + t.tokenAmount) ts

/-- FIFO fold invariant: open-lot total equals the clamped net position
whenever no buy follows an oversold state. -/
theorem fifoFold_invariant :
    ∀ (ts : List Trade) (acc : FifoAcc),
      (∀ t ∈ ts, 0 ≤ t.tokenAmount) →
      coveredB acc.totalBought acc.totalSold ts = true →
      (∀ l ∈ acc.lots, 0 ≤ l.remaining) →
      sumRem acc.lots = max (acc.totalBought - acc.totalSold) 0 →
      sumRem (ts.foldl fifoStep acc).lots
        = max ((ts.foldl fifoStep acc).totalBought
            - (ts.foldl fifoStep acc).totalSold) 0 ∧
      (∀ l ∈ (ts.foldl fifoStep acc).lots, 0 ≤ l.remaining) := by
  intro ts
  induction ts with
  | nil =>
    intro acc _ _ hnn hinv
    exact ⟨by simpa using hinv, by simpa using hnn⟩
  | cons t rest ih =>
    intro acc hamt hcov hnn hinv
    have hamt_t : 0 ≤ t.tokenAmount := hamt t (by simp)
    have hamt_rest : ∀ u ∈ rest, 0 ≤ u.tokenAmount :=
      fun u hu => hamt u (by simp [hu])
    simp only [List.foldl_cons]
    cases htype : t.type with
    | buy =>
      have hcov2 := hcov
      simp only [coveredB, htype] at hcov2
      rw [Bool.and_eq_true] at hcov2
      obtain ⟨hsb, hcovrest⟩ := hcov2
      have hsb2 : acc.totalSold ≤ acc.totalBought := of_decide_eq_true hsb
      apply ih
      · exact hamt_rest
      · simpa [fifoStep, htype] using hcovrest
      · intro l hl
        simp only [fifoStep, htype] at hl
        rcases List.mem_append.1 hl with hl | hl
        · exact hnn l hl
        · rw [List.mem_singleton] at hl
          subst hl
          exact hamt_t
      · simp only [fifoStep, htype, sumRem, List.map_append, List.sum_append]
        have hinv2 : (acc.lots.map Lot.remaining).sum
            = max (acc.totalBought - acc.totalSold) 0 := hinv
        rw [hinv2]
        simp only [List.map_cons, List.map_nil, List.sum_cons, List.sum_nil]
        rw [max_eq_left (by linarith), max_eq_left (by linarith)]
        ring
    | sell =>
      have hcov2 := hcov
      simp only [coveredB, htype] at hcov2
      obtain ⟨h1, h2, h3⟩ := matchLots_spec acc.lots t.tokenAmount hamt_t hnn
      apply ih
      · exact hamt_rest
      · simpa [fifoStep, htype] using hcov2
      · intro l hl
        simp only [fifoStep, htype] at hl
        exact h3 l hl
      · simp only [fifoStep, htype]
        rw [h2, hinv]
        rcases le_total (acc.totalBought - acc.totalSold) 0 with hc | hc
        · rw [max_eq_right hc, zero_sub,
            max_eq_right (by linarith), max_eq_right (by linarith)]
        · rw [max_eq_left hc]
          rcases le_total (acc.totalBought - acc.totalSold - t.tokenAmount) 0
            with hd | hd
          · rw [max_eq_right hd, max_eq_right (by linarith)]
          · rw [max_eq_left hd, max_eq_left (by linarith)]
            ring

/-- Dropping exhausted lots does not change the remaining total. -/
theorem sumRem_filter_pos (lots : List Lot)
    (h : ∀ l ∈ lots, 0 ≤ l.remaining) :
    sumRem (lots.filter (fun l => decide (0 < l.remaining)))
      = sumRem lots := by
  induction lots with
  | nil => simp [sumRem]
  | cons l rest ih =>
    have hl := h l (by simp)
    have hrest := ih (fun x hx => h x (by simp [hx]))
    by_cases hp : 0 < l.remaining
    · simp [List.filter_cons, hp, sumRem_cons, hrest]
    · have h0 : l.remaining = 0 := le_antisymm (not_lt.1 hp) hl
      simp [List.filter_cons, hp, sumRem_cons, hrest, h0]

/-- One mint group's conservation under the covered hypothesis. -/
theorem processMint_conservation (w mint : String) (tokenTrades : List Trade)
    (hamt : ∀ t ∈ tokenTrades, 0 ≤ t.tokenAmount)
    (hcov : coveredB 0 0 (sortByTs tokenTrades) = true) :
    sumRem (processMint w mint tokenTrades).lots
      = max ((processMint w mint tokenTrades).position.totalBought
          - (processMint w mint tokenTrades).position.totalSold) 0 := by
  have hamt2 : ∀ t ∈ sortByTs tokenTrades, 0 ≤ t.tokenAmount :=
    fun t ht => hamt t (mem_of_mem_sortByTs ht)
  obtain ⟨hsum, hnn⟩ := fifoFold_invariant (sortByTs tokenTrades) fifoInit
    hamt2 (by simpa [fifoInit] using hcov) (by simp [fifoInit])
    (by simp [fifoInit, sumRem])
  simp only [processMint]
  rw [sumRem_filter_pos _ hnn, hsum]

/-- C3 counterexample: for the stream sell 10 at t=1 then buy 10 at t=2
(one mint), the sell is matched against an empty queue and the later
buy's lot stays fully open — the persisted remaining total is 10 while
`total_bought − total_sold` clamped at 0 is 0, refuting conservation for
arbitrary finite trade lists. -/
theorem c3_conservation_cex :
    ((calculateFIFOPnL ("W") [tieSell, lateBuy]).mintResults.map
      (fun mr => sumRem mr.lots)) = [10] ∧
    ((calculateFIFOPnL ("W") [tieSell, lateBuy]).mintResults.map
      (fun mr => max (mr.position.totalBought - mr.position.totalSold) 0))
      = [0] ∧
    ((calculateFIFOPnL ("W") [tieSell, lateBuy]).mintResults.map
      (fun mr => sumRem mr.lots)) ≠
      ((calculateFIFOPnL ("W") [tieSell, lateBuy]).mintResults.map
        (fun mr => max (mr.position.totalBought - mr.position.totalSold) 0))
    := by
  have h1 : ((calculateFIFOPnL ("W") [tieSell, lateBuy]).mintResults.map
      (fun mr => sumRem mr.lots)) = [10] := by
    norm_num [calculateFIFOPnL, groupByMint, processMint, sortByTs,
      insertByTs, fifoStep, fifoInit, matchLots, firstTs, lastTs, sumRem,
      tieSell, lateBuy, fixMint]
  have h2 : ((calculateFIFOPnL ("W") [tieSell, lateBuy]).mintResults.map
      (fun mr => max (mr.position.totalBought - mr.position.totalSold) 0))
      = [0] := by
    norm_num [calculateFIFOPnL, groupByMint, processMint, sortByTs,
      insertByTs, fifoStep, fifoInit, matchLots, firstTs, lastTs,
      tieSell, lateBuy, fixMint]
  refine ⟨h1, h2, ?_⟩
  rw [h1, h2]
  simp

/-- C3 (amended): after `calculateFIFOPnL`, for every persisted mint
result, the sum of `remaining_amount` over its open lots equals
`total_bought − total_sold` clamped at 0, provided token amounts are
nonnegative and, in the timestamp-sorted stream of that mint, no buy
occurs after an oversold state (cumulative sold ≤ cumulative bought at
every buy).  This covers the spec's over-sell case (the unmatched
remainder past the final buy is zero-cost), but a buy after an unmatched
sell breaks the equality, as the counterexample shows. -/
theorem c3_fifo_conservation (w : String) (trades : List Trade)
    (hamt : ∀ t ∈ trades, 0 ≤ t.tokenAmount) :
    ∀ mr ∈ (calculateFIFOPnL w trades).mintResults,
      coveredB 0 0 (sortByTs (trades.filter
        (fun t => decide (t.tokenMint = mr.mint)))) = true →
      sumRem mr.lots
        = max (mr.position.totalBought - mr.position.totalSold) 0 := by
  intro mr hmr hcov
  simp only [calculateFIFOPnL, List.mem_map] at hmr
  rcases hmr with ⟨g, hg, rfl⟩
  have hgf := groupByMint_group_filter trades g hg
  have hamt2 : ∀ t ∈ g.2, 0 ≤ t.tokenAmount := by
    intro t ht
    rw [hgf] at ht
    exact hamt t (List.mem_of_mem_filter ht)
  apply processMint_conservation w g.1 g.2 hamt2
  rw [hgf]
  simpa [processMint] using hcov

/-- Witness for C3 (amended) on the three-trade FIFO scenario, whose
sorted stream is covered (both buys precede the sell). -/
theorem c3_fifo_conservation_witness :
    sumRem (processMint ("W") fixMint [c2Buy1, c2Buy2, c2Sell]).lots
      = max ((processMint ("W") fixMint
            [c2Buy1, c2Buy2, c2Sell]).position.totalBought
          - (processMint ("W") fixMint
            [c2Buy1, c2Buy2, c2Sell]).position.totalSold) 0 := by
  refine c3_fifo_conservation ("W") [c2Buy1, c2Buy2, c2Sell] ?_
    (processMint ("W") fixMint [c2Buy1, c2Buy2, c2Sell]) ?_ ?_
  · intro t ht
    simp only [List.mem_cons, List.not_mem_nil, or_false] at ht
    rcases ht with rfl | rfl | rfl <;> norm_num [c2Buy1, c2Buy2, c2Sell]
  · simp only [calculateFIFOPnL, List.mem_map]
    refine ⟨(fixMint, [c2Buy1, c2Buy2, c2Sell]), ?_, rfl⟩
    simp [groupByMint, List.filter, c2Buy1, c2Buy2, c2Sell, fixMint]
  · norm_num [processMint, coveredB, sortByTs, insertByTs, List.filter,
      c2Buy1, c2Buy2, c2Sell, fixMint, decide_tt_bb, decide_tt_bs,
      decide_tt_sb, decide_tt_ss]

end FuneralVision
